import Mathlib

/-!
Verification model of the AG-UI Go package `agui` (types.go, messages.go,
events.go, codec.go, helpers.go).

The package serializes a discriminated union of events and messages to JSON
and back.  This file gives a shallow embedding: Go structs become Lean
structures, `encoding/json` is modelled by an executable JSON value type
with a byte-level parser and renderer, Go errors become an explicit record
carrying the wrapped sentinel (what `errors.Is` can observe) and the message
text, and the multi-value Go returns `(T, error)` become an explicit pair.

Modelling notes, fixed here once for the whole file:
* bytes are modelled as `List Char`; all protocol data is ASCII/character
  based and no claim depends on UTF-8 byte details;
* JSON numbers are modelled as integers (the only typed numeric field of
  the package is the millisecond timestamp `*int64`; untyped payloads in
  the repository's data and tests are likewise integral); the renderer
  escapes `"`,`\`, `\n`, `\t`, `\r` and emits all other characters raw,
  and the reader accepts the standard escapes including `\uXXXX`;
* `interface{}` fields holding arbitrary JSON are `Option Json` with
  `none` for the Go `nil` interface (JSON `null` decodes to `nil`).
-/

namespace AgUi

/-- JSON value tree, the model of what `encoding/json` parses and emits. -/
inductive Json where
  | null : Json
  | bool (b : Bool) : Json
  | num (n : Int) : Json
  | str (s : String) : Json
  | arr (elems : List Json) : Json
  | obj (fields : List (String × Json)) : Json
deriving Repr

mutual

/-- Boolean equality on JSON trees. -/
def Json.beq : Json → Json → Bool
  | .null, .null => true
  | .bool a, .bool b => a == b
  | .num a, .num b => a == b
  | .str a, .str b => a == b
  | .arr a, .arr b => Json.beqList a b
  | .obj a, .obj b => Json.beqFields a b
  | _, _ => false

/-- Boolean equality on JSON element lists. -/
def Json.beqList : List Json → List Json → Bool
  | [], [] => true
  | a :: as, b :: bs => Json.beq a b && Json.beqList as bs
  | _, _ => false

/-- Boolean equality on JSON field lists. -/
def Json.beqFields : List (String × Json) → List (String × Json) → Bool
  | [], [] => true
  | (ka, va) :: as, (kb, vb) :: bs => ka == kb && Json.beq va vb && Json.beqFields as bs
  | _, _ => false

end

mutual

theorem Json.beq_iff (a b : Json) : Json.beq a b = true ↔ a = b := by
  cases a <;> cases b <;> simp [Json.beq]
  · exact Json.beqList_iff _ _
  · exact Json.beqFields_iff _ _

theorem Json.beqList_iff (a b : List Json) : Json.beqList a b = true ↔ a = b := by
  cases a <;> cases b <;> simp [Json.beqList]
  case cons.cons x xs y ys =>
    rw [Json.beq_iff, Json.beqList_iff]

theorem Json.beqFields_iff (a b : List (String × Json)) : Json.beqFields a b = true ↔ a = b := by
  cases a <;> cases b <;> simp [Json.beqFields]
  case cons.cons x xs y ys =>
    rw [Json.beq_iff, Json.beqFields_iff, Prod.ext_iff]

end

instance : DecidableEq Json := fun a b =>
  decidable_of_iff (Json.beq a b = true) (Json.beq_iff a b)

/-! ## JSON text reader

Model of the tokenizer used by `json.Unmarshal` and `json.Decoder.Decode`:
a JSON value optionally surrounded by whitespace.  The reader is a fueled
recursive-descent function; the fuel given at the top level
(`length + 1`) is ample for every value the renderer produces, which is
what the round-trip lemmas quantify over. -/

/-- Characters the Go JSON scanner treats as insignificant whitespace. -/
def isWs (c : Char) : Bool := c.toNat = 32 ∨ c.toNat = 10 ∨ c.toNat = 9 ∨ c.toNat = 13

/-- Drop leading JSON whitespace. -/
def skipWs : List Char → List Char
  | [] => []
  | c :: cs => if isWs c then skipWs cs else c :: cs

/-- ASCII decimal digit test. -/
def isDigitCh (c : Char) : Bool := 48 ≤ c.toNat ∧ c.toNat ≤ 57

/-- Numeric value of an ASCII digit. -/
def digitVal (c : Char) : Nat := c.toNat - 48

/-- Fold a digit string into the number it denotes. -/
def digitsToNat (ds : List Char) : Nat := ds.foldl (fun a c => 10 * a + digitVal c) 0

/-- Read a nonempty run of digits; anything else fails. -/
def parseNat (cs : List Char) : Option (Nat × List Char) :=
  let ds := cs.takeWhile isDigitCh
  if ds.isEmpty then none else some (digitsToNat ds, cs.dropWhile isDigitCh)

/-- Read an optionally negated integer literal. -/
def parseNumBody (cs : List Char) : Option (Int × List Char) :=
  match cs with
  | '-' :: tl => (parseNat tl).map (fun p => (-(p.1 : Int), p.2))
  | _ => (parseNat cs).map (fun p => ((p.1 : Int), p.2))

/-- Value of a hexadecimal digit, if any. -/
def hexVal (c : Char) : Option Nat :=
  if 48 ≤ c.toNat ∧ c.toNat ≤ 57 then some (c.toNat - 48)
  else if 97 ≤ c.toNat ∧ c.toNat ≤ 102 then some (c.toNat - 87)
  else if 65 ≤ c.toNat ∧ c.toNat ≤ 70 then some (c.toNat - 55)
  else none

/-- Decoded character of a single-letter escape sequence. -/
def escChar (e : Char) : Option Char :=
  if e = '"' then some '"'
  else if e = '\\' then some '\\'
  else if e = '/' then some '/'
  else if e = 'n' then some '\n'
  else if e = 't' then some '\t'
  else if e = 'r' then some '\r'
  else if e = 'b' then some (Char.ofNat 8)
  else if e = 'f' then some (Char.ofNat 12)
  else none

/-- Read the body of a string literal after the opening quote, returning the
decoded characters and the input past the closing quote (fueled; one unit
of fuel per consumed escape group or character). -/
def parseStringBody : Nat → List Char → Option (List Char × List Char)
  | 0, _ => none
  | _, [] => none
  | fuel + 1, c :: cs =>
    if c = '"' then some ([], cs)
    else if c = '\\' then
      match cs with
      | [] => none
      | e :: cs2 =>
        if e = 'u' then
          match cs2 with
          | h1 :: h2 :: h3 :: h4 :: cs6 =>
            match hexVal h1, hexVal h2, hexVal h3, hexVal h4 with
            | some a, some b, some g, some d =>
              match parseStringBody fuel cs6 with
              | some (s, r) => some (Char.ofNat (((a * 16 + b) * 16 + g) * 16 + d) :: s, r)
              | none => none
            | _, _, _, _ => none
          | _ => none
        else
          match escChar e with
          | some dc =>
            match parseStringBody fuel cs2 with
            | some (s, r) => some (dc :: s, r)
            | none => none
          | none => none
    else
      match parseStringBody fuel cs with
      | some (s, r) => some (c :: s, r)
      | none => none

mutual

/-- Read one JSON value (fueled). -/
def parseValue : Nat → List Char → Option (Json × List Char)
  | 0, _ => none
  | fuel + 1, cs =>
    match skipWs cs with
    | [] => none
    | c :: cs1 =>
      if c = 'n' then
        match cs1 with
        | 'u' :: 'l' :: 'l' :: rest => some (.null, rest)
        | _ => none
      else if c = 't' then
        match cs1 with
        | 'r' :: 'u' :: 'e' :: rest => some (.bool true, rest)
        | _ => none
      else if c = 'f' then
        match cs1 with
        | 'a' :: 'l' :: 's' :: 'e' :: rest => some (.bool false, rest)
        | _ => none
      else if c = '"' then
        match parseStringBody (cs1.length + 1) cs1 with
        | some (s, rest) => some (.str (String.mk s), rest)
        | none => none
      else if c = '[' then
        match skipWs cs1 with
        | ']' :: rest => some (.arr [], rest)
        | cs2 =>
          match parseElems fuel cs2 with
          | some (xs, rest) => some (.arr xs, rest)
          | none => none
      else if c = '\x7b' then
        match skipWs cs1 with
        | '\x7d' :: rest => some (.obj [], rest)
        | cs2 =>
          match parseFields fuel cs2 with
          | some (fs, rest) => some (.obj fs, rest)
          | none => none
      else if c = '-' ∨ isDigitCh c then
        match parseNumBody (c :: cs1) with
        | some (n, rest) => some (.num n, rest)
        | none => none
      else none

/-- Read the elements of a nonempty array up to and past the closing bracket. -/
def parseElems : Nat → List Char → Option (List Json × List Char)
  | 0, _ => none
  | fuel + 1, cs =>
    match parseValue fuel cs with
    | none => none
    | some (j, r) =>
      match skipWs r with
      | ',' :: r2 =>
        match parseElems fuel r2 with
        | some (js, rest) => some (j :: js, rest)
        | none => none
      | ']' :: r2 => some ([j], r2)
      | _ => none

/-- Read the members of a nonempty object up to and past the closing brace. -/
def parseFields : Nat → List Char → Option (List (String × Json) × List Char)
  | 0, _ => none
  | fuel + 1, cs =>
    match skipWs cs with
    | '"' :: cs1 =>
      match parseStringBody (cs1.length + 1) cs1 with
      | none => none
      | some (k, r1) =>
        match skipWs r1 with
        | ':' :: r2 =>
          match parseValue fuel r2 with
          | none => none
          | some (v, r3) =>
            match skipWs r3 with
            | ',' :: r4 =>
              match parseFields fuel r4 with
              | some (fs, rest) => some ((String.mk k, v) :: fs, rest)
              | none => none
            | '\x7d' :: r4 => some ([(String.mk k, v)], r4)
            | _ => none
        | _ => none
    | _ => none

end

/-- Result of pulling the next JSON value off a byte stream, as
`json.Decoder.Decode` does: clean end of input, a syntax error, or a value
plus the remaining bytes. -/
inductive ParseOutcome where
  | eof : ParseOutcome
  | fail : ParseOutcome
  | ok (j : Json) (rest : List Char) : ParseOutcome
deriving DecidableEq

/-- Pull the next JSON value off the stream. -/
def parseOneJson (cs : List Char) : ParseOutcome :=
  if (skipWs cs).isEmpty then .eof
  else
    match parseValue (cs.length + 1) cs with
    | some (j, rest) => .ok j rest
    | none => .fail

/-- Whole-input parse, as `json.Unmarshal` sees it: one value with nothing
but whitespace around it. -/
def parseJsonChars (cs : List Char) : Option Json :=
  match parseOneJson cs with
  | .ok j rest => if (skipWs rest).isEmpty then some j else none
  | _ => none

/-- Whole-input parse of a Lean string. -/
def parseJsonStr (s : String) : Option Json := parseJsonChars s.data

/-! ## JSON text writer

Model of `json.Marshal` output for the values the package produces:
objects and arrays without interior whitespace, integer numbers, strings
with the escapes noted at the top of the file. -/

/-- ASCII digit character of a value below ten. -/
def digitCh (d : Nat) : Char := Char.ofNat (48 + d)

/-- Decimal digit string of a natural number (fueled; the wrapper below
always supplies enough). -/
def natToDigitsAux : Nat → Nat → List Char
  | 0, _ => []
  | fuel + 1, n =>
    if n < 10 then [digitCh n] else natToDigitsAux fuel (n / 10) ++ [digitCh (n % 10)]

/-- Decimal digit string of a natural number. -/
def natToDigits (n : Nat) : List Char := natToDigitsAux (n + 1) n

/-- Decimal rendering of an integer. -/
def renderInt (n : Int) : List Char :=
  if n < 0 then '-' :: natToDigits n.natAbs else natToDigits n.natAbs

/-- Escape sequence (or identity) used by the writer for one character. -/
def escapeChar (c : Char) : List Char :=
  if c = '"' then ['\\', '"']
  else if c = '\\' then ['\\', '\\']
  else if c = '\n' then ['\\', 'n']
  else if c = '\t' then ['\\', 't']
  else if c = '\r' then ['\\', 'r']
  else [c]

/-- Escape a character sequence for inclusion in a string literal. -/
def escapeChars (cs : List Char) : List Char := (cs.map escapeChar).flatten

/-- Rendered string literal, quotes included. -/
def renderString (s : String) : List Char := '"' :: (escapeChars s.data ++ ['"'])

mutual

/-- Rendered text of a JSON value. -/
def renderJson : Json → List Char
  | .num n => renderInt n
  | .str s => renderString s
  | .arr xs => '[' :: renderElems xs
  | .obj fs => '\x7b' :: renderFields fs
  | .null => 'n' :: ['u', 'l', 'l']
  | .bool true => 't' :: ['r', 'u', 'e']
  | .bool false => 'f' :: ['a', 'l', 's', 'e']

/-- Rendered elements of an array, with separators and the closing bracket. -/
def renderElems : List Json → List Char
  | [] => [']']
  | [x] => renderJson x ++ [']']
  | x :: y :: ys => renderJson x ++ ',' :: renderElems (y :: ys)

/-- Rendered members of an object, with separators and the closing brace. -/
def renderFields : List (String × Json) → List Char
  | [] => ['\x7d']
  | [(k, v)] => renderString k ++ ':' :: (renderJson v ++ ['\x7d'])
  | (k, v) :: f :: fs => renderString k ++ ':' :: (renderJson v ++ ',' :: renderFields (f :: fs))

end

mutual

/-- Fuel needed by the reader for one rendered value. -/
def sizeV : Json → Nat
  | .arr xs => 1 + sizeL xs
  | .obj fs => 1 + sizeF fs
  | _ => 1

/-- Fuel needed by the reader for rendered array elements. -/
def sizeL : List Json → Nat
  | [] => 0
  | x :: xs => 1 + max (sizeV x) (sizeL xs)

/-- Fuel needed by the reader for rendered object members. -/
def sizeF : List (String × Json) → Nat
  | [] => 0
  | f :: fs => 1 + max (sizeV f.2) (sizeF fs)

end

/-- Input that does not begin with a digit, so that a number rendered in
front of it keeps its own boundary. -/
def digitBoundary : List Char → Bool
  | [] => true
  | c :: _ => !isDigitCh c

/-! ## Print-parse round trip

The reader recovers every value the writer produces, with the unconsumed
input handed back exactly. -/

theorem skipWs_cons_of_not (c : Char) (cs : List Char) (h : isWs c = false) :
    skipWs (c :: cs) = c :: cs := by
  simp [skipWs, h]

theorem skipWs_length_le (cs : List Char) : (skipWs cs).length ≤ cs.length := by
  induction cs with
  | nil => simp [skipWs]
  | cons c cs ih =>
    by_cases h : isWs c = true
    · simp only [skipWs, h, if_true]
      exact Nat.le_succ_of_le ih
    · simp [skipWs, h]

theorem takeWhile_append_all (p : Char → Bool) (ds rest : List Char)
    (hall : ∀ c ∈ ds, p c = true) (hrest : rest = [] ∨ ∀ c ∈ rest.take 1, p c = false) :
    (ds ++ rest).takeWhile p = ds ∧ (ds ++ rest).dropWhile p = rest := by
  induction ds with
  | nil =>
    simp only [List.nil_append]
    rcases hrest with h | h
    · simp [h, List.takeWhile, List.dropWhile]
    · cases rest with
      | nil => simp [List.takeWhile, List.dropWhile]
      | cons r rs =>
        have := h r (by simp)
        simp [List.takeWhile, List.dropWhile, this]
  | cons d ds ih =>
    have hd := hall d (by simp)
    have ih2 := ih (fun c hc => hall c (by simp [hc]))
    simp [List.takeWhile, List.dropWhile, hd, ih2.1, ih2.2]

theorem digitCh_toNat (d : Nat) (h : d < 10) : (digitCh d).toNat = 48 + d := by
  interval_cases d <;> decide

theorem isDigitCh_digitCh (d : Nat) (h : d < 10) : isDigitCh (digitCh d) = true := by
  interval_cases d <;> decide

theorem digitVal_digitCh (d : Nat) (h : d < 10) : digitVal (digitCh d) = d := by
  interval_cases d <;> decide

theorem natToDigitsAux_all_digits (f : Nat) :
    ∀ n, n < f → ∀ c ∈ natToDigitsAux f n, isDigitCh c = true := by
  induction f with
  | zero => intro n h; omega
  | succ f ih =>
    intro n _ c hc
    by_cases h10 : n < 10
    · simp only [natToDigitsAux, h10, if_true, List.mem_singleton] at hc
      subst hc
      exact isDigitCh_digitCh n h10
    · simp only [natToDigitsAux, h10, if_false, List.mem_append, List.mem_singleton] at hc
      rcases hc with hc | hc
      · exact ih (n / 10) (by omega) c hc
      · subst hc
        exact isDigitCh_digitCh (n % 10) (by omega)

theorem natToDigitsAux_ne_nil (f n : Nat) (h : n < f) : natToDigitsAux f n ≠ [] := by
  cases f with
  | zero => omega
  | succ f =>
    by_cases h10 : n < 10 <;> simp [natToDigitsAux, h10]

theorem digitsToNat_append_one (ds : List Char) (d : Char) :
    digitsToNat (ds ++ [d]) = 10 * digitsToNat ds + digitVal d := by
  simp [digitsToNat, List.foldl_append]

theorem digitsToNat_natToDigitsAux (f : Nat) :
    ∀ n, n < f → digitsToNat (natToDigitsAux f n) = n := by
  induction f with
  | zero => intro n h; omega
  | succ f ih =>
    intro n _
    by_cases h10 : n < 10
    · simp [natToDigitsAux, h10, digitsToNat, digitVal_digitCh n h10]
    · have : digitsToNat (natToDigitsAux f (n / 10) ++ [digitCh (n % 10)]) =
          10 * digitsToNat (natToDigitsAux f (n / 10)) + digitVal (digitCh (n % 10)) :=
        digitsToNat_append_one _ _
      simp only [natToDigitsAux, h10, if_false]
      rw [this, ih (n / 10) (by omega), digitVal_digitCh (n % 10) (by omega)]
      omega

theorem parseNat_render (n : Nat) (rest : List Char) (hb : digitBoundary rest = true) :
    parseNat (natToDigits n ++ rest) = some (n, rest) := by
  have hall := natToDigitsAux_all_digits (n + 1) n (by omega)
  have hne := natToDigitsAux_ne_nil (n + 1) n (by omega)
  have hrest : rest = [] ∨ ∀ c ∈ rest.take 1, isDigitCh c = false := by
    cases rest with
    | nil => exact Or.inl rfl
    | cons r rs =>
      right
      intro c hc
      simp only [List.take, List.mem_singleton] at hc
      subst hc
      simpa [digitBoundary] using hb
  have h2 := takeWhile_append_all isDigitCh (natToDigits n) rest hall hrest
  rw [parseNat]
  simp only [natToDigits] at h2 ⊢
  rw [h2.1, h2.2]
  simp [hne, digitsToNat_natToDigitsAux (n + 1) n (by omega)]

theorem natToDigits_head_digit (n : Nat) :
    ∃ d ds, natToDigits n = d :: ds ∧ isDigitCh d = true := by
  have hall := natToDigitsAux_all_digits (n + 1) n (by omega)
  have hne := natToDigitsAux_ne_nil (n + 1) n (by omega)
  simp only [natToDigits]
  cases h : natToDigitsAux (n + 1) n with
  | nil => exact absurd h hne
  | cons d ds =>
    exact ⟨d, ds, rfl, hall d (by rw [h]; simp)⟩

theorem isDigitCh_ne_minus (c : Char) (h : isDigitCh c = true) : c ≠ '-' := by
  intro he
  subst he
  simp [isDigitCh] at h

theorem parseNumBody_render (n : Int) (rest : List Char) (hb : digitBoundary rest = true) :
    parseNumBody (renderInt n ++ rest) = some (n, rest) := by
  obtain ⟨d, ds, hds, hdig⟩ := natToDigits_head_digit n.natAbs
  by_cases hn : n < 0
  · simp only [renderInt, hn, if_true, List.cons_append, parseNumBody,
      parseNat_render n.natAbs rest hb, Option.map_some]
    have he : -((n.natAbs : Int)) = n := by omega
    simp [he, abs_of_neg hn]
  · simp only [renderInt, hn, if_false]
    rw [hds]
    have : parseNumBody ((d :: ds) ++ rest) = (parseNat ((d :: ds) ++ rest)).map
        (fun p => ((p.1 : Int), p.2)) := by
      rw [parseNumBody.eq_def]
      simp only [List.cons_append]
      have : d ≠ '-' := isDigitCh_ne_minus d hdig
      cases hd : d
      simp_all
    rw [this, ← hds, parseNat_render n.natAbs rest hb]
    simp
    omega

theorem escLen_cons (c : Char) (cs : List Char) :
    escapeChars (c :: cs) = escapeChar c ++ escapeChars cs := by
  simp [escapeChars]

theorem parseStringBody_render (ds : List Char) :
    ∀ f rest, (escapeChars ds).length < f →
      parseStringBody f (escapeChars ds ++ '"' :: rest) = some (ds, rest) := by
  induction ds with
  | nil =>
    intro f rest hf
    cases f with
    | zero => omega
    | succ f => simp [escapeChars, parseStringBody]
  | cons c cs ih =>
    intro f rest hf
    rw [escLen_cons] at hf ⊢
    by_cases h1 : c = '"'
    · subst h1
      cases f with
      | zero => simp [escapeChar] at hf; try omega
      | succ f =>
        have hrec := ih f rest (by simp [escapeChar] at hf ⊢; try omega)
        simp [escapeChar, parseStringBody, escChar, hrec]
    · by_cases h2 : c = '\\'
      · subst h2
        cases f with
        | zero => simp [escapeChar] at hf; try omega
        | succ f =>
          have hrec := ih f rest (by simp [escapeChar] at hf ⊢; try omega)
          simp [escapeChar, parseStringBody, escChar, hrec]
      · by_cases h3 : c = '\n'
        · subst h3
          cases f with
          | zero => simp [escapeChar] at hf; try omega
          | succ f =>
            have hrec := ih f rest (by simp [escapeChar] at hf ⊢; try omega)
            simp [escapeChar, parseStringBody, escChar, hrec]
        · by_cases h4 : c = '\t'
          · subst h4
            cases f with
            | zero => simp [escapeChar] at hf; try omega
            | succ f =>
              have hrec := ih f rest (by simp [escapeChar] at hf ⊢; try omega)
              simp [escapeChar, parseStringBody, escChar, hrec]
          · by_cases h5 : c = '\r'
            · subst h5
              cases f with
              | zero => simp [escapeChar] at hf; try omega
              | succ f =>
                have hrec := ih f rest (by simp [escapeChar] at hf ⊢; try omega)
                simp [escapeChar, parseStringBody, escChar, hrec]
            · cases f with
              | zero => simp [escapeChar, h1, h2, h3, h4, h5] at hf; try omega
              | succ f =>
                have hrec := ih f rest (by simp [escapeChar, h1, h2, h3, h4, h5] at hf ⊢; try omega)
                simp [escapeChar, parseStringBody, h1, h2, h3, h4, h5, hrec]

theorem isDigitCh_toNat_bounds (c : Char) (h : isDigitCh c = true) :
    48 ≤ c.toNat ∧ c.toNat ≤ 57 := by
  simpa [isDigitCh] using h

theorem isWs_eq_false_of_digit (c : Char) (h : isDigitCh c = true) : isWs c = false := by
  have hb := isDigitCh_toNat_bounds c h
  simp only [isWs, decide_eq_false_iff_not]
  omega

theorem parseValue_litNull (f : Nat) (rest : List Char) :
    parseValue (f + 1) ('n' :: 'u' :: 'l' :: 'l' :: rest) = some (.null, rest) := by
  simp [parseValue, skipWs, isWs]

theorem parseValue_litTrue (f : Nat) (rest : List Char) :
    parseValue (f + 1) ('t' :: 'r' :: 'u' :: 'e' :: rest) = some (.bool true, rest) := by
  simp [parseValue, skipWs, isWs]

theorem parseValue_litFalse (f : Nat) (rest : List Char) :
    parseValue (f + 1) ('f' :: 'a' :: 'l' :: 's' :: 'e' :: rest) = some (.bool false, rest) := by
  simp [parseValue, skipWs, isWs]

theorem parseValue_quote (f : Nat) (cs : List Char) :
    parseValue (f + 1) ('"' :: cs) =
      match parseStringBody (cs.length + 1) cs with
      | some (s, rest) => some (.str (String.mk s), rest)
      | none => none := by
  simp [parseValue, skipWs, isWs]

theorem parseValue_lbrack (f : Nat) (cs : List Char) :
    parseValue (f + 1) ('[' :: cs) =
      match skipWs cs with
      | ']' :: rest => some (.arr [], rest)
      | cs2 =>
        match parseElems f cs2 with
        | some (xs, rest) => some (.arr xs, rest)
        | none => none := by
  simp [parseValue, skipWs, isWs]

theorem parseValue_lbrace (f : Nat) (cs : List Char) :
    parseValue (f + 1) ('\x7b' :: cs) =
      match skipWs cs with
      | '\x7d' :: rest => some (.obj [], rest)
      | cs2 =>
        match parseFields f cs2 with
        | some (fs, rest) => some (.obj fs, rest)
        | none => none := by
  simp [parseValue, skipWs, isWs]

theorem parseValue_numHead (f : Nat) (c : Char) (cs : List Char)
    (h : c = '-' ∨ isDigitCh c = true) :
    parseValue (f + 1) (c :: cs) =
      match parseNumBody (c :: cs) with
      | some (n, rest) => some (.num n, rest)
      | none => none := by
  rcases h with h | h
  · subst h
    simp [parseValue, skipWs, isWs]
  · have hws : isWs c = false := isWs_eq_false_of_digit c h
    have hb := isDigitCh_toNat_bounds c h
    have h1 : ¬ (c = 'n') := fun he => absurd (he ▸ h) (by decide)
    have h2 : ¬ (c = 't') := fun he => absurd (he ▸ h) (by decide)
    have h3 : ¬ (c = 'f') := fun he => absurd (he ▸ h) (by decide)
    have h4 : ¬ (c = '"') := fun he => absurd (he ▸ h) (by decide)
    have h5 : ¬ (c = '[') := fun he => absurd (he ▸ h) (by decide)
    have h6 : ¬ (c = '\x7b') := fun he => absurd (he ▸ h) (by decide)
    simp only [parseValue, skipWs_cons_of_not c cs hws]
    simp [h1, h2, h3, h4, h5, h6, h]

theorem string_mk_data (s : String) : String.mk s.data = s := by
  cases s
  rfl

theorem renderInt_head (n : Int) :
    ∃ c cs, renderInt n = c :: cs ∧ (c = '-' ∨ isDigitCh c = true) := by
  obtain ⟨d, ds, hds, hdig⟩ := natToDigits_head_digit n.natAbs
  by_cases hn : n < 0
  · exact ⟨'-', natToDigits n.natAbs, by simp [renderInt, hn], Or.inl rfl⟩
  · exact ⟨d, ds, by simp [renderInt, hn, hds], Or.inr hdig⟩

theorem renderJson_head (j : Json) :
    ∃ c t, renderJson j = c :: t ∧ isWs c = false ∧ c ≠ ']' ∧ c ≠ '\x7d' := by
  cases j with
  | null => exact ⟨'n', _, rfl, by decide, by decide, by decide⟩
  | bool b =>
    cases b
    · exact ⟨'f', _, rfl, by decide, by decide, by decide⟩
    · exact ⟨'t', _, rfl, by decide, by decide, by decide⟩
  | num n =>
    obtain ⟨c, cs, hcs, hc⟩ := renderInt_head n
    refine ⟨c, cs, by simp [renderJson, hcs], ?_, ?_, ?_⟩
    · rcases hc with hc | hc
      · subst hc; decide
      · exact isWs_eq_false_of_digit c hc
    · rcases hc with hc | hc
      · subst hc; decide
      · exact fun he => absurd (he ▸ hc) (by decide)
    · rcases hc with hc | hc
      · subst hc; decide
      · exact fun he => absurd (he ▸ hc) (by decide)
  | str s => exact ⟨'"', _, rfl, by decide, by decide, by decide⟩
  | arr xs => exact ⟨'[', _, rfl, by decide, by decide, by decide⟩
  | obj fs => exact ⟨'\x7b', _, rfl, by decide, by decide, by decide⟩

theorem renderElems_head (x : Json) (xs : List Json) :
    ∃ c t, renderElems (x :: xs) = c :: t ∧ isWs c = false ∧ c ≠ ']' := by
  obtain ⟨c, t, hct, hws, hbr, _⟩ := renderJson_head x
  cases xs with
  | nil => exact ⟨c, t ++ [']'], by simp [renderElems, hct], hws, hbr⟩
  | cons y ys => exact ⟨c, t ++ ',' :: renderElems (y :: ys), by simp [renderElems, hct], hws, hbr⟩

theorem sizeV_pos (j : Json) : 1 ≤ sizeV j := by
  cases j <;> simp [sizeV]

theorem digitBoundary_cons (c : Char) (t : List Char) (h : isDigitCh c = false) :
    digitBoundary (c :: t) = true := by
  simp [digitBoundary, h]

theorem renderParseAll : ∀ f : Nat,
    (∀ j rest, sizeV j ≤ f → digitBoundary rest = true →
      parseValue f (renderJson j ++ rest) = some (j, rest)) ∧
    (∀ x xs rest, sizeL (x :: xs) ≤ f → digitBoundary rest = true →
      parseElems f (renderElems (x :: xs) ++ rest) = some (x :: xs, rest)) ∧
    (∀ k v fs rest, sizeF ((k, v) :: fs) ≤ f → digitBoundary rest = true →
      parseFields f (renderFields ((k, v) :: fs) ++ rest) = some ((k, v) :: fs, rest)) := by
  intro f
  induction f with
  | zero =>
    refine ⟨?_, ?_, ?_⟩
    · intro j rest hf hb
      exact absurd (le_trans (sizeV_pos j) hf) (by omega)
    · intro x xs rest hf hb
      simp [sizeL] at hf
    · intro k v fs rest hf hb
      simp [sizeF] at hf
  | succ f ih =>
    obtain ⟨ihv, ihe, ihf⟩ := ih
    refine ⟨?_, ?_, ?_⟩
    · intro j rest hf hb
      cases j with
      | null =>
        simp only [renderJson, List.cons_append, List.nil_append]
        exact parseValue_litNull f rest
      | bool b =>
        cases b
        · simp only [renderJson, List.cons_append, List.nil_append]
          exact parseValue_litFalse f rest
        · simp only [renderJson, List.cons_append, List.nil_append]
          exact parseValue_litTrue f rest
      | num n =>
        obtain ⟨c, cs, hcs, hc⟩ := renderInt_head n
        simp only [renderJson, hcs, List.cons_append]
        rw [parseValue_numHead f c (cs ++ rest) hc, ← List.cons_append, ← hcs,
          parseNumBody_render n rest hb]
      | str s =>
        simp only [renderJson, renderString, List.cons_append, List.append_assoc,
          List.singleton_append, List.nil_append]
        rw [parseValue_quote, parseStringBody_render s.data _ rest (by simp; omega)]
      | arr xs =>
        cases xs with
        | nil =>
          simp only [renderJson, renderElems, List.cons_append, List.singleton_append,
            List.nil_append]
          rw [parseValue_lbrack, skipWs_cons_of_not ']' rest (by decide)]
          rfl
        | cons x xs =>
          obtain ⟨c, t, hct, hws, hbr⟩ := renderElems_head x xs
          simp only [renderJson, List.cons_append]
          rw [parseValue_lbrack, hct, List.cons_append, skipWs_cons_of_not c _ hws]
          have hrec : parseElems f (renderElems (x :: xs) ++ rest) = some (x :: xs, rest) :=
            ihe x xs rest (by simp [sizeV] at hf; omega) hb
          rw [hct, List.cons_append] at hrec
          split
          · next rest2 heq =>
            exact absurd (List.head_eq_of_cons_eq heq) hbr
          · rw [hrec]
      | obj fs =>
        cases fs with
        | nil =>
          simp only [renderJson, renderFields, List.cons_append, List.singleton_append,
            List.nil_append]
          rw [parseValue_lbrace, skipWs_cons_of_not '\x7d' rest (by decide)]
          rfl
        | cons kv fs =>
          obtain ⟨k, v⟩ := kv
          simp only [renderJson, List.cons_append]
          rw [parseValue_lbrace]
          have hhead : ∃ t, renderFields ((k, v) :: fs) = '"' :: t := by
            cases fs with
            | nil =>
              exact ⟨escapeChars k.data ++ '"' :: ':' :: (renderJson v ++ ['\x7d']),
                by simp [renderFields, renderString]⟩
            | cons f2 fs2 =>
              exact ⟨escapeChars k.data ++ '"' :: ':' ::
                  (renderJson v ++ ',' :: renderFields (f2 :: fs2)),
                by simp [renderFields, renderString]⟩
          obtain ⟨t, hct⟩ := hhead
          rw [hct, List.cons_append, skipWs_cons_of_not '"' _ (by decide)]
          have hrec : parseFields f (renderFields ((k, v) :: fs) ++ rest) =
              some ((k, v) :: fs, rest) :=
            ihf k v fs rest (by simp [sizeV] at hf; omega) hb
          rw [hct, List.cons_append] at hrec
          split
          · next rest2 heq =>
            exact absurd (List.head_eq_of_cons_eq heq) (by decide)
          · rw [hrec]
    · intro x xs rest hf hb
      cases xs with
      | nil =>
        have h1 : parseValue f (renderJson x ++ (']' :: rest)) = some (x, ']' :: rest) :=
          ihv x (']' :: rest) (by simp [sizeL] at hf; omega)
            (digitBoundary_cons ']' rest (by decide))
        simp only [renderElems, List.append_assoc, List.singleton_append]
        simp only [parseElems, h1]
        simp [skipWs_cons_of_not ']' rest (by decide)]
      | cons y ys =>
        have h1 : parseValue f (renderJson x ++ (',' :: (renderElems (y :: ys) ++ rest))) =
            some (x, ',' :: (renderElems (y :: ys) ++ rest)) :=
          ihv x _ (by simp [sizeL] at hf; omega) (digitBoundary_cons ',' _ (by decide))
        have h2 : parseElems f (renderElems (y :: ys) ++ rest) = some (y :: ys, rest) :=
          ihe y ys rest (by simp [sizeL] at hf ⊢; omega) hb
        simp only [renderElems, List.append_assoc, List.cons_append]
        simp only [parseElems, h1]
        simp [skipWs_cons_of_not ',' _ (by decide), h2]
    · intro k v fs rest hf hb
      cases fs with
      | nil =>
        have h1 : parseValue f (renderJson v ++ ('\x7d' :: rest)) = some (v, '\x7d' :: rest) :=
          ihv v ('\x7d' :: rest) (by simp [sizeF] at hf; omega)
            (digitBoundary_cons '\x7d' rest (by decide))
        have hsb : parseStringBody
            ((escapeChars k.data ++ '"' :: ':' :: (renderJson v ++ '\x7d' :: rest)).length + 1)
            (escapeChars k.data ++ '"' :: ':' :: (renderJson v ++ '\x7d' :: rest)) =
            some (k.data, ':' :: (renderJson v ++ '\x7d' :: rest)) :=
          parseStringBody_render k.data _ _ (by simp; omega)
        simp only [renderFields, renderString, List.append_assoc, List.cons_append,
          List.singleton_append, List.nil_append]
        simp only [parseFields]
        rw [skipWs_cons_of_not '"' _ (by decide)]
        simp only [hsb, h1, skipWs_cons_of_not ':' _ (by decide),
          skipWs_cons_of_not '\x7d' rest (by decide), string_mk_data]
      | cons f2 fs2 =>
        obtain ⟨k2, v2⟩ := f2
        have h1 : parseValue f
            (renderJson v ++ (',' :: (renderFields ((k2, v2) :: fs2) ++ rest))) =
            some (v, ',' :: (renderFields ((k2, v2) :: fs2) ++ rest)) :=
          ihv v _ (by simp [sizeF] at hf; omega) (digitBoundary_cons ',' _ (by decide))
        have h2 : parseFields f (renderFields ((k2, v2) :: fs2) ++ rest) =
            some ((k2, v2) :: fs2, rest) :=
          ihf k2 v2 fs2 rest (by simp [sizeF] at hf ⊢; omega) hb
        have hsb : parseStringBody
            ((escapeChars k.data ++ '"' :: ':' ::
              (renderJson v ++ ',' :: (renderFields ((k2, v2) :: fs2) ++ rest))).length + 1)
            (escapeChars k.data ++ '"' :: ':' ::
              (renderJson v ++ ',' :: (renderFields ((k2, v2) :: fs2) ++ rest))) =
            some (k.data, ':' ::
              (renderJson v ++ ',' :: (renderFields ((k2, v2) :: fs2) ++ rest))) :=
          parseStringBody_render k.data _ _ (by simp; omega)
        simp only [renderFields, renderString, List.append_assoc, List.cons_append,
          List.singleton_append, List.nil_append]
        simp only [parseFields]
        rw [skipWs_cons_of_not '"' _ (by decide)]
        simp only [hsb, h1, h2, skipWs_cons_of_not ':' _ (by decide),
          skipWs_cons_of_not ',' _ (by decide), string_mk_data]

theorem pv_render (j : Json) (f : Nat) (rest : List Char) (hf : sizeV j ≤ f)
    (hb : digitBoundary rest = true) :
    parseValue f (renderJson j ++ rest) = some (j, rest) :=
  (renderParseAll f).1 j rest hf hb

theorem sizeOf_json_pos (j : Json) : 1 ≤ sizeOf j := by
  cases j <;> simp

theorem renderInt_ne_nil (n : Int) : renderInt n ≠ [] := by
  have h := natToDigitsAux_ne_nil (n.natAbs + 1) n.natAbs (by omega)
  by_cases hn : n < 0 <;> simp [renderInt, hn, natToDigits, h]

theorem sizeVLen : ∀ (n : Nat),
    (∀ j, sizeOf j ≤ n → sizeV j ≤ (renderJson j).length) ∧
    (∀ (x : Json) (xs : List Json), sizeOf (x :: xs) ≤ n →
      sizeL (x :: xs) ≤ (renderElems (x :: xs)).length) ∧
    (∀ (k : String) (v : Json) (fs : List (String × Json)), sizeOf ((k, v) :: fs) ≤ n →
      sizeF ((k, v) :: fs) ≤ (renderFields ((k, v) :: fs)).length) := by
  intro n
  induction n with
  | zero =>
    refine ⟨?_, ?_, ?_⟩
    · intro j h
      exact absurd (le_trans (sizeOf_json_pos j) h) (by omega)
    · intro x xs h
      simp at h
    · intro k v fs h
      simp at h
  | succ n ih =>
    obtain ⟨ihv, ihe, ihf⟩ := ih
    refine ⟨?_, ?_, ?_⟩
    · intro j hn
      cases j with
      | null => simp [sizeV, renderJson]
      | bool b => cases b <;> simp [sizeV, renderJson]
      | num m =>
        have h := renderInt_ne_nil m
        have : 1 ≤ (renderInt m).length := by
          cases hr : renderInt m
          · exact absurd hr h
          · simp
        simpa [sizeV, renderJson] using this
      | str s => simp [sizeV, renderJson, renderString]
      | arr xs =>
        cases xs with
        | nil => simp [sizeV, sizeL, renderJson, renderElems]
        | cons x xs =>
          have hrec := ihe x xs (by simp at hn ⊢; omega)
          simp only [sizeV, renderJson, List.length_cons]
          omega
      | obj fs =>
        cases fs with
        | nil => simp [sizeV, sizeF, renderJson, renderFields]
        | cons kv fs =>
          obtain ⟨k, v⟩ := kv
          have hrec := ihf k v fs (by simp at hn ⊢; omega)
          simp only [sizeV, renderJson, List.length_cons]
          omega
    · intro x xs hn
      cases xs with
      | nil =>
        have hrec := ihv x (by simp at hn ⊢; omega)
        simp only [sizeL, sizeL.eq_1, renderElems, List.length_append, List.length_cons,
          List.length_nil]
        omega
      | cons y ys =>
        have h1 := ihv x (by simp at hn ⊢; omega)
        have h2 := ihe y ys (by simp at hn ⊢; omega)
        have e1 : sizeL (x :: y :: ys) = 1 + max (sizeV x) (sizeL (y :: ys)) := rfl
        have e2 : (renderElems (x :: y :: ys)).length =
            (renderJson x).length + (1 + (renderElems (y :: ys)).length) := by
          simp [renderElems]
          omega
        omega
    · intro k v fs hn
      cases fs with
      | nil =>
        have hrec := ihv v (by simp at hn ⊢; omega)
        simp only [sizeF, sizeF.eq_1, sizeL.eq_1, renderFields, renderString,
          List.length_append, List.length_cons, List.length_nil]
        omega
      | cons f2 fs2 =>
        obtain ⟨k2, v2⟩ := f2
        have h1 := ihv v (by simp at hn ⊢; omega)
        have h2 := ihf k2 v2 fs2 (by simp at hn ⊢; omega)
        have e1 : sizeF ((k, v) :: (k2, v2) :: fs2) =
            1 + max (sizeV v) (sizeF ((k2, v2) :: fs2)) := rfl
        have e2 : (renderFields ((k, v) :: (k2, v2) :: fs2)).length =
            (renderString k).length +
              (1 + ((renderJson v).length + (1 + (renderFields ((k2, v2) :: fs2)).length))) := by
          simp [renderFields, renderString]
          omega
        omega

theorem sizeV_le_renderLen (j : Json) : sizeV j ≤ (renderJson j).length :=
  (sizeVLen (sizeOf j)).1 j (le_refl _)

theorem parseOneJson_render (j : Json) (rest : List Char) (hb : digitBoundary rest = true) :
    parseOneJson (renderJson j ++ rest) = .ok j rest := by
  obtain ⟨c, t, hct, hws, _, _⟩ := renderJson_head j
  have hpv : parseValue ((renderJson j ++ rest).length + 1) (renderJson j ++ rest) =
      some (j, rest) :=
    pv_render j _ rest (by have := sizeV_le_renderLen j; simp [List.length_append]; omega) hb
  rw [parseOneJson]
  rw [hct, List.cons_append, skipWs_cons_of_not c _ hws]
  rw [hct, List.cons_append] at hpv
  simp only [List.length_cons, List.length_append] at hpv
  simp [hpv]

/-! ## Consumption

Every successful step of the reader consumes at least one input character;
this grounds termination of the streaming loop further below. -/

theorem parseNat_consume (cs : List Char) (n : Nat) (rest : List Char)
    (h : parseNat cs = some (n, rest)) : rest.length < cs.length := by
  rw [parseNat] at h
  by_cases hds : (cs.takeWhile isDigitCh).isEmpty
  · simp [hds] at h
  · simp only [hds, if_neg, Bool.false_eq_true, not_false_iff, Option.some.injEq,
      Prod.mk.injEq] at h
    cases cs with
    | nil => simp [List.takeWhile] at hds
    | cons c tl =>
      by_cases hc : isDigitCh c
      · have : rest = (c :: tl).dropWhile isDigitCh := h.2.symm
        rw [this, List.dropWhile]
        simp only [hc]
        have := (List.dropWhile_suffix (l := tl) isDigitCh).length_le
        simp only [List.length_cons]
        omega
      · simp [List.takeWhile, hc] at hds

theorem parseNumBody_consume (cs : List Char) (n : Int) (rest : List Char)
    (h : parseNumBody cs = some (n, rest)) : rest.length < cs.length := by
  rw [parseNumBody.eq_def] at h
  split at h
  · next tl =>
    cases hp : parseNat tl with
    | none => simp [hp] at h
    | some p =>
      obtain ⟨pn, pr⟩ := p
      simp only [hp, Option.map, Option.some.injEq, Prod.mk.injEq] at h
      obtain ⟨hn, hr⟩ := h
      subst hr
      have := parseNat_consume tl pn pr (by rw [hp])
      simp only [List.length_cons]
      omega
  · cases hp : parseNat cs with
    | none => simp [hp] at h
    | some p =>
      obtain ⟨pn, pr⟩ := p
      simp only [hp, Option.map, Option.some.injEq, Prod.mk.injEq] at h
      obtain ⟨hn, hr⟩ := h
      subst hr
      exact parseNat_consume cs pn pr (by rw [hp])

theorem parseStringBody_consume : ∀ (f : Nat) (cs s rest : List Char),
    parseStringBody f cs = some (s, rest) → rest.length < cs.length := by
  intro f
  induction f with
  | zero =>
    intro cs s rest h
    simp [parseStringBody] at h
  | succ f ih =>
    intro cs s rest h
    cases cs with
    | nil => simp [parseStringBody] at h
    | cons c cs =>
      simp only [parseStringBody] at h
      split_ifs at h with h1 h2
      · simp only [Option.some.injEq, Prod.mk.injEq] at h
        obtain ⟨hs, hr⟩ := h
        subst hr
        simp
      · split at h
        · exact absurd h (by simp)
        · next e cs2 =>
          split_ifs at h with h3
          · split at h
            · next h1c h2c h3c h4c cs6 =>
              split at h
              · split at h
                · next s0 r heq =>
                  simp only [Option.some.injEq, Prod.mk.injEq] at h
                  obtain ⟨hs, hr⟩ := h
                  subst hr
                  have := ih cs6 s0 r heq
                  simp only [List.length_cons]
                  omega
                · exact absurd h (by simp)
              · exact absurd h (by simp)
            · exact absurd h (by simp)
          · split at h
            · next dc heq =>
              split at h
              · next s0 r heq2 =>
                simp only [Option.some.injEq, Prod.mk.injEq] at h
                obtain ⟨hs, hr⟩ := h
                subst hr
                have := ih cs2 s0 r heq2
                simp only [List.length_cons]
                omega
              · exact absurd h (by simp)
            · exact absurd h (by simp)
      · split at h
        · next s0 r heq =>
          simp only [Option.some.injEq, Prod.mk.injEq] at h
          obtain ⟨hs, hr⟩ := h
          subst hr
          have := ih cs s0 r heq
          simp only [List.length_cons]
          omega
        · exact absurd h (by simp)

theorem parseConsumeAll : ∀ f : Nat,
    (∀ cs j rest, parseValue f cs = some (j, rest) → rest.length < cs.length) ∧
    (∀ cs xs rest, parseElems f cs = some (xs, rest) → rest.length < cs.length) ∧
    (∀ cs fs rest, parseFields f cs = some (fs, rest) → rest.length < cs.length) := by
  intro f
  induction f with
  | zero =>
    refine ⟨?_, ?_, ?_⟩ <;> intro cs a rest h
    · simp [parseValue] at h
    · simp [parseElems] at h
    · simp [parseFields] at h
  | succ f ih =>
    obtain ⟨ihv, ihe, ihf⟩ := ih
    refine ⟨?_, ?_, ?_⟩
    · intro cs j rest h
      simp only [parseValue] at h
      split at h
      · exact absurd h (by simp)
      · next c cs1 heq =>
        have hsk : cs1.length < cs.length := by
          have h1 := skipWs_length_le cs
          rw [heq] at h1
          simp only [List.length_cons] at h1
          omega
        split_ifs at h with hc1 hc2 hc3 hc4 hc5 hc6 hc7
        · split at h
          · next rest0 =>
            simp only [Option.some.injEq, Prod.mk.injEq] at h
            obtain ⟨hj, hr⟩ := h
            subst hr
            simp_all [List.length_cons]
            omega
          · exact absurd h (by simp)
        · split at h
          · next rest0 =>
            simp only [Option.some.injEq, Prod.mk.injEq] at h
            obtain ⟨hj, hr⟩ := h
            subst hr
            simp_all [List.length_cons]
            omega
          · exact absurd h (by simp)
        · split at h
          · next rest0 =>
            simp only [Option.some.injEq, Prod.mk.injEq] at h
            obtain ⟨hj, hr⟩ := h
            subst hr
            simp_all [List.length_cons]
            omega
          · exact absurd h (by simp)
        · split at h
          · next s0 rest0 heq2 =>
            simp only [Option.some.injEq, Prod.mk.injEq] at h
            obtain ⟨hj, hr⟩ := h
            subst hr
            have := parseStringBody_consume (cs1.length + 1) cs1 s0 rest0 heq2
            omega
          · exact absurd h (by simp)
        · split at h
          · next rest0 heq2 =>
            simp only [Option.some.injEq, Prod.mk.injEq] at h
            obtain ⟨hj, hr⟩ := h
            subst hr
            have h2 := skipWs_length_le cs1
            rw [heq2] at h2
            simp only [List.length_cons] at h2
            omega
          · next _csa _csb hne =>
            split at h
            · next xs0 rest0 heq3 =>
              simp only [Option.some.injEq, Prod.mk.injEq] at h
              obtain ⟨hj, hr⟩ := h
              subst hr
              have h2 := skipWs_length_le cs1
              have h3 := ihe _ xs0 rest0 heq3
              omega
            · exact absurd h (by simp)
        · split at h
          · next rest0 heq2 =>
            simp only [Option.some.injEq, Prod.mk.injEq] at h
            obtain ⟨hj, hr⟩ := h
            subst hr
            have h2 := skipWs_length_le cs1
            rw [heq2] at h2
            simp only [List.length_cons] at h2
            omega
          · next _csa _csb hne =>
            split at h
            · next fs0 rest0 heq3 =>
              simp only [Option.some.injEq, Prod.mk.injEq] at h
              obtain ⟨hj, hr⟩ := h
              subst hr
              have h2 := skipWs_length_le cs1
              have h3 := ihf _ fs0 rest0 heq3
              omega
            · exact absurd h (by simp)
        · split at h
          · next n0 rest0 heq2 =>
            simp only [Option.some.injEq, Prod.mk.injEq] at h
            obtain ⟨hj, hr⟩ := h
            subst hr
            have h2 := parseNumBody_consume (c :: cs1) n0 rest0 heq2
            simp only [List.length_cons] at h2
            omega
          · exact absurd h (by simp)
    · intro cs xs rest h
      simp only [parseElems] at h
      split at h
      · exact absurd h (by simp)
      · next j0 r heq =>
        have h1 := ihv cs j0 r heq
        split at h
        · next r2 heq2 =>
          have h2 := skipWs_length_le r
          rw [heq2] at h2
          simp only [List.length_cons] at h2
          split at h
          · next js0 rest0 heq3 =>
            simp only [Option.some.injEq, Prod.mk.injEq] at h
            obtain ⟨hj, hr⟩ := h
            subst hr
            have h3 := ihe r2 js0 rest0 heq3
            omega
          · exact absurd h (by simp)
        · next r2 heq2 =>
          simp only [Option.some.injEq, Prod.mk.injEq] at h
          obtain ⟨hj, hr⟩ := h
          subst hr
          have h2 := skipWs_length_le r
          rw [heq2] at h2
          simp only [List.length_cons] at h2
          omega
        · exact absurd h (by simp)
    · intro cs fs rest h
      simp only [parseFields] at h
      split at h
      · next cs1 heq =>
        have h1 := skipWs_length_le cs
        rw [heq] at h1
        simp only [List.length_cons] at h1
        split at h
        · exact absurd h (by simp)
        · next k0 r1 heq2 =>
          have h2 := parseStringBody_consume (cs1.length + 1) cs1 k0 r1 heq2
          split at h
          · next r2 heq3 =>
            have h3 := skipWs_length_le r1
            rw [heq3] at h3
            simp only [List.length_cons] at h3
            split at h
            · exact absurd h (by simp)
            · next v0 r3 heq4 =>
              have h4 := ihv r2 v0 r3 heq4
              split at h
              · next r4 heq5 =>
                have h5 := skipWs_length_le r3
                rw [heq5] at h5
                simp only [List.length_cons] at h5
                split at h
                · next fs0 rest0 heq6 =>
                  simp only [Option.some.injEq, Prod.mk.injEq] at h
                  obtain ⟨hj, hr⟩ := h
                  subst hr
                  have h6 := ihf r4 fs0 rest0 heq6
                  omega
                · exact absurd h (by simp)
              · next r4 heq5 =>
                simp only [Option.some.injEq, Prod.mk.injEq] at h
                obtain ⟨hj, hr⟩ := h
                subst hr
                have h5 := skipWs_length_le r3
                rw [heq5] at h5
                simp only [List.length_cons] at h5
                omega
              · exact absurd h (by simp)
          · exact absurd h (by simp)
      · exact absurd h (by simp)

theorem parseOneJson_consume (cs : List Char) (j : Json) (rest : List Char)
    (h : parseOneJson cs = .ok j rest) : rest.length < cs.length := by
  rw [parseOneJson] at h
  split_ifs at h
  · split at h
    · next j0 rest0 heq =>
      cases h
      exact (parseConsumeAll (cs.length + 1)).1 cs j rest heq
    · exact absurd h (by simp)

/-! ## Go error model (codec.go lines 10-17)

A Go error is modelled by the sentinel its wrap chain exposes to
`errors.Is` (the package wraps at most one of its predeclared sentinels
per error, via `fmt.Errorf("%w: ...", sentinel, ...)`) together with the
rendered message text.  Errors returned by the `Validate` methods are
plain `fmt.Errorf` values wrapping nothing. -/

inductive Sentinel where
  | invalidEventType : Sentinel
  | invalidMessageType : Sentinel
  | invalidStructure : Sentinel
  | unmarshalFailed : Sentinel
  | marshalFailed : Sentinel
  | validationFailed : Sentinel
  | ioEOF : Sentinel
deriving DecidableEq, Repr

/-- Message text of each predeclared sentinel. -/
def Sentinel.text : Sentinel → String
  | .invalidEventType => "agui: invalid event type"
  | .invalidMessageType => "agui: invalid message type"
  | .invalidStructure => "agui: invalid message structure"
  | .unmarshalFailed => "agui: failed to unmarshal"
  | .marshalFailed => "agui: failed to marshal"
  | .validationFailed => "agui: validation failed"
  | .ioEOF => "EOF"

/-- Go error value as observable by a caller: `wraps` is the predeclared
sentinel found by `errors.Is`, if any, and `msg` the `Error()` text. -/
structure GoError where
  wraps : Option Sentinel
  msg : String
deriving DecidableEq, Repr

/-- Error built by plain `fmt.Errorf` without `%w`: wraps nothing. -/
def errPlain (m : String) : GoError := ⟨none, m⟩

/-- Error built by `fmt.Errorf("%w: <detail>", sentinel, ...)`. -/
def errWrap (s : Sentinel) (detail : String) : GoError :=
  ⟨some s, s.text ++ ": " ++ detail⟩

/-- Error built by `fmt.Errorf("<pre>%w", inner)`: keeps the inner chain. -/
def errCtx (pre : String) (inner : GoError) : GoError :=
  ⟨inner.wraps, pre ++ inner.msg⟩

/-- One Go `(value, error)` return pair, kept as the source returns it. -/
structure GoResult (α : Type) where
  val : Option α
  err : Option GoError
deriving Repr

instance {α : Type} [DecidableEq α] : DecidableEq (GoResult α) := by
  intro a b
  cases a
  cases b
  exact decidable_of_iff _ (by rw [GoResult.mk.injEq])

/-! ## Taxonomy (types.go)

`EventType`, `Role` and `ToolCallType` are Go string types; we keep them
as strings.  Struct fields are named after their JSON tags (Go exports
them capitalized; the wire names are what matter here). -/

abbrev EventType := String

def EventTypeTextMessageStart : EventType := "TEXT_MESSAGE_START"
def EventTypeTextMessageContent : EventType := "TEXT_MESSAGE_CONTENT"
def EventTypeTextMessageEnd : EventType := "TEXT_MESSAGE_END"
def EventTypeToolCallStart : EventType := "TOOL_CALL_START"
def EventTypeToolCallArgs : EventType := "TOOL_CALL_ARGS"
def EventTypeToolCallEnd : EventType := "TOOL_CALL_END"
def EventTypeToolCallResult : EventType := "TOOL_CALL_RESULT"
def EventTypeStateSnapshot : EventType := "STATE_SNAPSHOT"
def EventTypeStateDelta : EventType := "STATE_DELTA"
def EventTypeMessagesSnapshot : EventType := "MESSAGES_SNAPSHOT"
def EventTypeRaw : EventType := "RAW"
def EventTypeCustom : EventType := "CUSTOM"
def EventTypeRunStarted : EventType := "RUN_STARTED"
def EventTypeRunFinished : EventType := "RUN_FINISHED"
def EventTypeRunError : EventType := "RUN_ERROR"
def EventTypeStepStarted : EventType := "STEP_STARTED"
def EventTypeStepFinished : EventType := "STEP_FINISHED"

/-- Membership switch of `EventType.IsValid` (types.go lines 36-48). -/
def EventType.IsValid (e : EventType) : Bool :=
  e = EventTypeTextMessageStart ∨ e = EventTypeTextMessageContent ∨
  e = EventTypeTextMessageEnd ∨ e = EventTypeToolCallStart ∨
  e = EventTypeToolCallArgs ∨ e = EventTypeToolCallEnd ∨
  e = EventTypeToolCallResult ∨ e = EventTypeStateSnapshot ∨
  e = EventTypeStateDelta ∨ e = EventTypeMessagesSnapshot ∨
  e = EventTypeRaw ∨ e = EventTypeCustom ∨
  e = EventTypeRunStarted ∨ e = EventTypeRunFinished ∨ e = EventTypeRunError ∨
  e = EventTypeStepStarted ∨ e = EventTypeStepFinished

abbrev Role := String

def RoleDeveloper : Role := "developer"
def RoleSystem : Role := "system"
def RoleAssistant : Role := "assistant"
def RoleUser : Role := "user"
def RoleTool : Role := "tool"

/-- Membership switch of `Role.IsValid` (types.go lines 63-70). -/
def Role.IsValid (r : Role) : Bool :=
  r = RoleDeveloper ∨ r = RoleSystem ∨ r = RoleAssistant ∨ r = RoleUser ∨ r = RoleTool

abbrev ToolCallType := String

def ToolCallTypeFunction : ToolCallType := "function"

/-- Membership test of `ToolCallType.IsValid` (types.go lines 81-83). -/
def ToolCallType.IsValid (t : ToolCallType) : Bool := t = ToolCallTypeFunction

/-- FunctionCall (types.go lines 128-131). -/
structure FunctionCall where
  name : String
  arguments : String
deriving DecidableEq, Repr

/-- `FunctionCall.Validate` (types.go lines 134-147): required fields plus
a syntactic JSON check of the `arguments` string contents. -/
def FunctionCall.Validate (f : FunctionCall) : Option GoError :=
  if f.name = "" then some (errPlain "function name is required")
  else if f.arguments = "" then some (errPlain "function arguments are required")
  else
    match parseJsonStr f.arguments with
    | none => some (errPlain "function arguments must be valid JSON")
    | some _ => none

/-- ToolCall (types.go lines 150-154). -/
structure ToolCall where
  id : String
  type : ToolCallType
  function : FunctionCall
deriving DecidableEq, Repr

/-- `ToolCall.Validate` (types.go lines 157-165). -/
def ToolCall.Validate (t : ToolCall) : Option GoError :=
  if t.id = "" then some (errPlain "tool call ID is required")
  else if ¬ t.type.IsValid then some (errPlain ("invalid tool call type: " ++ t.type))
  else t.function.Validate

/-! ## Messages (messages.go) -/

/-- BaseMessage (messages.go lines 19-23). -/
structure BaseMessage where
  id : String
  role : Role
  name : String
deriving DecidableEq, Repr

/-- `BaseMessage.Validate` (messages.go lines 41-49). -/
def BaseMessage.Validate (b : BaseMessage) : Option GoError :=
  if b.id = "" then some (errPlain "message ID is required")
  else if ¬ b.role.IsValid then some (errPlain ("invalid message role: " ++ b.role))
  else none

structure DeveloperMessage where
  base : BaseMessage
  content : String
deriving DecidableEq, Repr

/-- `DeveloperMessage.Validate` (messages.go lines 63-74). -/
def DeveloperMessage.Validate (d : DeveloperMessage) : Option GoError :=
  match d.base.Validate with
  | some e => some e
  | none =>
    if d.base.role ≠ RoleDeveloper then
      some (errPlain ("developer message must have developer role, got: " ++ d.base.role))
    else if d.content = "" then some (errPlain "developer message content is required")
    else none

structure SystemMessage where
  base : BaseMessage
  content : String
deriving DecidableEq, Repr

/-- `SystemMessage.Validate` (messages.go lines 88-99). -/
def SystemMessage.Validate (s : SystemMessage) : Option GoError :=
  match s.base.Validate with
  | some e => some e
  | none =>
    if s.base.role ≠ RoleSystem then
      some (errPlain ("system message must have system role, got: " ++ s.base.role))
    else if s.content = "" then some (errPlain "system message content is required")
    else none

structure AssistantMessage where
  base : BaseMessage
  content : String
  toolCalls : List ToolCall
deriving DecidableEq, Repr

/-- First failure over an indexed list, wrapped the way the Go loops
report it: `fmt.Errorf("<pre><index>: %w", err)`. -/
def firstErrIdx {α : Type} (vld : α → Option GoError) (pre : String) :
    Nat → List α → Option GoError
  | _, [] => none
  | i, x :: xs =>
    match vld x with
    | some e => some (errCtx (pre ++ Nat.repr i ++ ": ") e)
    | none => firstErrIdx vld pre (i + 1) xs

/-- `AssistantMessage.Validate` (messages.go lines 114-130). -/
def AssistantMessage.Validate (a : AssistantMessage) : Option GoError :=
  match a.base.Validate with
  | some e => some e
  | none =>
    if a.base.role ≠ RoleAssistant then
      some (errPlain ("assistant message must have assistant role, got: " ++ a.base.role))
    else firstErrIdx ToolCall.Validate "invalid tool call at index " 0 a.toolCalls

structure UserMessage where
  base : BaseMessage
  content : String
deriving DecidableEq, Repr

/-- `UserMessage.Validate` (messages.go lines 144-155). -/
def UserMessage.Validate (u : UserMessage) : Option GoError :=
  match u.base.Validate with
  | some e => some e
  | none =>
    if u.base.role ≠ RoleUser then
      some (errPlain ("user message must have user role, got: " ++ u.base.role))
    else if u.content = "" then some (errPlain "user message content is required")
    else none

structure ToolMessage where
  base : BaseMessage
  content : String
  toolCallId : String
  error : String
deriving DecidableEq, Repr

/-- `ToolMessage.Validate` (messages.go lines 171-185). -/
def ToolMessage.Validate (t : ToolMessage) : Option GoError :=
  match t.base.Validate with
  | some e => some e
  | none =>
    if t.base.role ≠ RoleTool then
      some (errPlain ("tool message must have tool role, got: " ++ t.base.role))
    else if t.content = "" then some (errPlain "tool message content is required")
    else if t.toolCallId = "" then some (errPlain "tool message toolCallId is required")
    else none

/-- The open `Message` union (messages.go lines 9-16), closed over the five
concrete variants the package defines. -/
inductive Message where
  | developer (m : DeveloperMessage) : Message
  | system (m : SystemMessage) : Message
  | assistant (m : AssistantMessage) : Message
  | user (m : UserMessage) : Message
  | tool (m : ToolMessage) : Message
deriving DecidableEq, Repr

/-- Interface dispatch of `Validate` on a `Message` value. -/
def Message.Validate : Message → Option GoError
  | .developer m => m.Validate
  | .system m => m.Validate
  | .assistant m => m.Validate
  | .user m => m.Validate
  | .tool m => m.Validate

/-- Interface accessor `GetID`. -/
def Message.GetID : Message → String
  | .developer m => m.base.id
  | .system m => m.base.id
  | .assistant m => m.base.id
  | .user m => m.base.id
  | .tool m => m.base.id

/-- Interface accessor `GetRole`. -/
def Message.GetRole : Message → Role
  | .developer m => m.base.role
  | .system m => m.base.role
  | .assistant m => m.base.role
  | .user m => m.base.role
  | .tool m => m.base.role

/-- Interface accessor `MessageType`. -/
def Message.MessageType : Message → String
  | .developer _ => "DeveloperMessage"
  | .system _ => "SystemMessage"
  | .assistant _ => "AssistantMessage"
  | .user _ => "UserMessage"
  | .tool _ => "ToolMessage"

/-! ## Events (events.go)

Every variant embeds BaseEvent; untyped `interface{}` payloads are
`Option Json` (`none` is the Go `nil` interface), `[]interface{}` is
`Option (List Json)` (`none` is the nil slice), and the `[]Message`
snapshot field is `Option (List Message)`. -/

/-- BaseEvent (events.go lines 20-24). -/
structure BaseEvent where
  type : EventType
  timestamp : Option Int
  rawEvent : Option Json
deriving DecidableEq, Repr

/-- `BaseEvent.Validate` (events.go lines 42-47). -/
def BaseEvent.Validate (b : BaseEvent) : Option GoError :=
  if ¬ b.type.IsValid then some (errPlain ("invalid event type: " ++ b.type))
  else none

structure RunStartedEvent where
  base : BaseEvent
  threadId : String
  runId : String
deriving DecidableEq, Repr

/-- `RunStartedEvent.Validate` (events.go lines 70-84). -/
def RunStartedEvent.Validate (r : RunStartedEvent) : Option GoError :=
  match r.base.Validate with
  | some e => some e
  | none =>
    if r.base.type ≠ EventTypeRunStarted then
      some (errPlain ("run started event must have RUN_STARTED type, got: " ++ r.base.type))
    else if r.threadId = "" then some (errPlain "thread ID is required")
    else if r.runId = "" then some (errPlain "run ID is required")
    else none

structure RunFinishedEvent where
  base : BaseEvent
  threadId : String
  runId : String
  result : Option Json
deriving DecidableEq, Repr

/-- `RunFinishedEvent.Validate` (events.go lines 100-114). -/
def RunFinishedEvent.Validate (r : RunFinishedEvent) : Option GoError :=
  match r.base.Validate with
  | some e => some e
  | none =>
    if r.base.type ≠ EventTypeRunFinished then
      some (errPlain ("run finished event must have RUN_FINISHED type, got: " ++ r.base.type))
    else if r.threadId = "" then some (errPlain "thread ID is required")
    else if r.runId = "" then some (errPlain "run ID is required")
    else none

structure RunErrorEvent where
  base : BaseEvent
  message : String
  code : String
deriving DecidableEq, Repr

/-- `RunErrorEvent.Validate` (events.go lines 129-140). -/
def RunErrorEvent.Validate (r : RunErrorEvent) : Option GoError :=
  match r.base.Validate with
  | some e => some e
  | none =>
    if r.base.type ≠ EventTypeRunError then
      some (errPlain ("run error event must have RUN_ERROR type, got: " ++ r.base.type))
    else if r.message = "" then some (errPlain "error message is required")
    else none

structure StepStartedEvent where
  base : BaseEvent
  stepName : String
deriving DecidableEq, Repr

/-- `StepStartedEvent.Validate` (events.go lines 154-165). -/
def StepStartedEvent.Validate (s : StepStartedEvent) : Option GoError :=
  match s.base.Validate with
  | some e => some e
  | none =>
    if s.base.type ≠ EventTypeStepStarted then
      some (errPlain ("step started event must have STEP_STARTED type, got: " ++ s.base.type))
    else if s.stepName = "" then some (errPlain "step name is required")
    else none

structure StepFinishedEvent where
  base : BaseEvent
  stepName : String
deriving DecidableEq, Repr

/-- `StepFinishedEvent.Validate` (events.go lines 179-190). -/
def StepFinishedEvent.Validate (s : StepFinishedEvent) : Option GoError :=
  match s.base.Validate with
  | some e => some e
  | none =>
    if s.base.type ≠ EventTypeStepFinished then
      some (errPlain ("step finished event must have STEP_FINISHED type, got: " ++ s.base.type))
    else if s.stepName = "" then some (errPlain "step name is required")
    else none

structure TextMessageStartEvent where
  base : BaseEvent
  messageId : String
  role : Role
deriving DecidableEq, Repr

/-- `TextMessageStartEvent.Validate` (events.go lines 207-221). -/
def TextMessageStartEvent.Validate (t : TextMessageStartEvent) : Option GoError :=
  match t.base.Validate with
  | some e => some e
  | none =>
    if t.base.type ≠ EventTypeTextMessageStart then
      some (errPlain ("text message start event must have TEXT_MESSAGE_START type, got: " ++
        t.base.type))
    else if t.messageId = "" then some (errPlain "message ID is required")
    else if t.role ≠ RoleAssistant then
      some (errPlain ("text message role must be assistant, got: " ++ t.role))
    else none

structure TextMessageContentEvent where
  base : BaseEvent
  messageId : String
  delta : String
deriving DecidableEq, Repr

/-- `TextMessageContentEvent.Validate` (events.go lines 236-250). -/
def TextMessageContentEvent.Validate (t : TextMessageContentEvent) : Option GoError :=
  match t.base.Validate with
  | some e => some e
  | none =>
    if t.base.type ≠ EventTypeTextMessageContent then
      some (errPlain ("text message content event must have TEXT_MESSAGE_CONTENT type, got: " ++
        t.base.type))
    else if t.messageId = "" then some (errPlain "message ID is required")
    else if t.delta = "" then some (errPlain "delta must not be empty")
    else none

structure TextMessageEndEvent where
  base : BaseEvent
  messageId : String
deriving DecidableEq, Repr

/-- `TextMessageEndEvent.Validate` (events.go lines 264-275). -/
def TextMessageEndEvent.Validate (t : TextMessageEndEvent) : Option GoError :=
  match t.base.Validate with
  | some e => some e
  | none =>
    if t.base.type ≠ EventTypeTextMessageEnd then
      some (errPlain ("text message end event must have TEXT_MESSAGE_END type, got: " ++
        t.base.type))
    else if t.messageId = "" then some (errPlain "message ID is required")
    else none

structure ToolCallStartEvent where
  base : BaseEvent
  toolCallId : String
  toolCallName : String
  parentMessageId : String
deriving DecidableEq, Repr

/-- `ToolCallStartEvent.Validate` (events.go lines 293-307). -/
def ToolCallStartEvent.Validate (t : ToolCallStartEvent) : Option GoError :=
  match t.base.Validate with
  | some e => some e
  | none =>
    if t.base.type ≠ EventTypeToolCallStart then
      some (errPlain ("tool call start event must have TOOL_CALL_START type, got: " ++
        t.base.type))
    else if t.toolCallId = "" then some (errPlain "tool call ID is required")
    else if t.toolCallName = "" then some (errPlain "tool call name is required")
    else none

structure ToolCallArgsEvent where
  base : BaseEvent
  toolCallId : String
  delta : String
deriving DecidableEq, Repr

/-- `ToolCallArgsEvent.Validate` (events.go lines 322-334); the delta may
be empty for tool call args. -/
def ToolCallArgsEvent.Validate (t : ToolCallArgsEvent) : Option GoError :=
  match t.base.Validate with
  | some e => some e
  | none =>
    if t.base.type ≠ EventTypeToolCallArgs then
      some (errPlain ("tool call args event must have TOOL_CALL_ARGS type, got: " ++ t.base.type))
    else if t.toolCallId = "" then some (errPlain "tool call ID is required")
    else none

structure ToolCallEndEvent where
  base : BaseEvent
  toolCallId : String
deriving DecidableEq, Repr

/-- `ToolCallEndEvent.Validate` (events.go lines 348-359). -/
def ToolCallEndEvent.Validate (t : ToolCallEndEvent) : Option GoError :=
  match t.base.Validate with
  | some e => some e
  | none =>
    if t.base.type ≠ EventTypeToolCallEnd then
      some (errPlain ("tool call end event must have TOOL_CALL_END type, got: " ++ t.base.type))
    else if t.toolCallId = "" then some (errPlain "tool call ID is required")
    else none

structure ToolCallResultEvent where
  base : BaseEvent
  messageId : String
  toolCallId : String
  content : String
  role : Role
deriving DecidableEq, Repr

/-- `ToolCallResultEvent.Validate` (events.go lines 376-396): the optional
role is rejected only when non-empty and unrecognized. -/
def ToolCallResultEvent.Validate (t : ToolCallResultEvent) : Option GoError :=
  match t.base.Validate with
  | some e => some e
  | none =>
    if t.base.type ≠ EventTypeToolCallResult then
      some (errPlain ("tool call result event must have TOOL_CALL_RESULT type, got: " ++
        t.base.type))
    else if t.messageId = "" then some (errPlain "message ID is required")
    else if t.toolCallId = "" then some (errPlain "tool call ID is required")
    else if t.content = "" then some (errPlain "content is required")
    else if t.role ≠ "" ∧ ¬ t.role.IsValid then some (errPlain ("invalid role: " ++ t.role))
    else none

structure StateSnapshotEvent where
  base : BaseEvent
  snapshot : Option Json
deriving DecidableEq, Repr

/-- `StateSnapshotEvent.Validate` (events.go lines 412-423). -/
def StateSnapshotEvent.Validate (s : StateSnapshotEvent) : Option GoError :=
  match s.base.Validate with
  | some e => some e
  | none =>
    if s.base.type ≠ EventTypeStateSnapshot then
      some (errPlain ("state snapshot event must have STATE_SNAPSHOT type, got: " ++ s.base.type))
    else
      match s.snapshot with
      | none => some (errPlain "snapshot is required")
      | some _ => none

structure StateDeltaEvent where
  base : BaseEvent
  delta : Option (List Json)
deriving DecidableEq, Repr

/-- `StateDeltaEvent.Validate` (events.go lines 437-448). -/
def StateDeltaEvent.Validate (s : StateDeltaEvent) : Option GoError :=
  match s.base.Validate with
  | some e => some e
  | none =>
    if s.base.type ≠ EventTypeStateDelta then
      some (errPlain ("state delta event must have STATE_DELTA type, got: " ++ s.base.type))
    else
      match s.delta with
      | none => some (errPlain "delta is required")
      | some _ => none

structure MessagesSnapshotEvent where
  base : BaseEvent
  messages : Option (List Message)
deriving DecidableEq, Repr

/-- `MessagesSnapshotEvent.Validate` (events.go lines 462-481): nil slice
rejected, then every contained message validated with its index. -/
def MessagesSnapshotEvent.Validate (m : MessagesSnapshotEvent) : Option GoError :=
  match m.base.Validate with
  | some e => some e
  | none =>
    if m.base.type ≠ EventTypeMessagesSnapshot then
      some (errPlain ("messages snapshot event must have MESSAGES_SNAPSHOT type, got: " ++
        m.base.type))
    else
      match m.messages with
      | none => some (errPlain "messages are required")
      | some msgs => firstErrIdx Message.Validate "invalid message at index " 0 msgs

structure RawEvent where
  base : BaseEvent
  event : Option Json
  source : String
deriving DecidableEq, Repr

/-- `RawEvent.Validate` (events.go lines 498-509). -/
def RawEvent.Validate (r : RawEvent) : Option GoError :=
  match r.base.Validate with
  | some e => some e
  | none =>
    if r.base.type ≠ EventTypeRaw then
      some (errPlain ("raw event must have RAW type, got: " ++ r.base.type))
    else
      match r.event with
      | none => some (errPlain "event is required")
      | some _ => none

structure CustomEvent where
  base : BaseEvent
  name : String
  value : Option Json
deriving DecidableEq, Repr

/-- `CustomEvent.Validate` (events.go lines 524-538). -/
def CustomEvent.Validate (c : CustomEvent) : Option GoError :=
  match c.base.Validate with
  | some e => some e
  | none =>
    if c.base.type ≠ EventTypeCustom then
      some (errPlain ("custom event must have CUSTOM type, got: " ++ c.base.type))
    else if c.name = "" then some (errPlain "name is required")
    else
      match c.value with
      | none => some (errPlain "value is required")
      | some _ => none

/-- The open `Event` union (events.go lines 10-17), closed over the 17
concrete variants the package defines. -/
inductive Event where
  | runStarted (e : RunStartedEvent) : Event
  | runFinished (e : RunFinishedEvent) : Event
  | runError (e : RunErrorEvent) : Event
  | stepStarted (e : StepStartedEvent) : Event
  | stepFinished (e : StepFinishedEvent) : Event
  | textMessageStart (e : TextMessageStartEvent) : Event
  | textMessageContent (e : TextMessageContentEvent) : Event
  | textMessageEnd (e : TextMessageEndEvent) : Event
  | toolCallStart (e : ToolCallStartEvent) : Event
  | toolCallArgs (e : ToolCallArgsEvent) : Event
  | toolCallEnd (e : ToolCallEndEvent) : Event
  | toolCallResult (e : ToolCallResultEvent) : Event
  | stateSnapshot (e : StateSnapshotEvent) : Event
  | stateDelta (e : StateDeltaEvent) : Event
  | messagesSnapshot (e : MessagesSnapshotEvent) : Event
  | raw (e : RawEvent) : Event
  | custom (e : CustomEvent) : Event
deriving DecidableEq, Repr

/-- Interface dispatch of `Validate` on an `Event` value. -/
def Event.Validate : Event → Option GoError
  | .runStarted e => e.Validate
  | .runFinished e => e.Validate
  | .runError e => e.Validate
  | .stepStarted e => e.Validate
  | .stepFinished e => e.Validate
  | .textMessageStart e => e.Validate
  | .textMessageContent e => e.Validate
  | .textMessageEnd e => e.Validate
  | .toolCallStart e => e.Validate
  | .toolCallArgs e => e.Validate
  | .toolCallEnd e => e.Validate
  | .toolCallResult e => e.Validate
  | .stateSnapshot e => e.Validate
  | .stateDelta e => e.Validate
  | .messagesSnapshot e => e.Validate
  | .raw e => e.Validate
  | .custom e => e.Validate

/-- Shared header of an event variant. -/
def Event.baseOf : Event → BaseEvent
  | .runStarted e => e.base
  | .runFinished e => e.base
  | .runError e => e.base
  | .stepStarted e => e.base
  | .stepFinished e => e.base
  | .textMessageStart e => e.base
  | .textMessageContent e => e.base
  | .textMessageEnd e => e.base
  | .toolCallStart e => e.base
  | .toolCallArgs e => e.base
  | .toolCallEnd e => e.base
  | .toolCallResult e => e.base
  | .stateSnapshot e => e.base
  | .stateDelta e => e.base
  | .messagesSnapshot e => e.base
  | .raw e => e.base
  | .custom e => e.base

/-- Interface accessor `GetType` (promoted from BaseEvent). -/
def Event.GetType (e : Event) : EventType := e.baseOf.type

/-! ## Marshalling (`json.Marshal` on the package structs)

Fields are emitted in declaration order, embedded header first, with the
`omitempty` policy of each json tag: nil pointers, nil interfaces, empty
strings and empty slices are omitted where the tag says so. -/

/-- JSON of a Go `interface{}` value holding decoded JSON; the nil
interface marshals to `null`. -/
def jsonOrNull : Option Json → Json
  | none => .null
  | some j => j

/-- Header fields of an event: `type`, then optional `timestamp` and
`rawEvent` (both omitempty). -/
def baseEventFields (b : BaseEvent) : List (String × Json) :=
  ("type", .str b.type) ::
    ((match b.timestamp with
      | some t => [("timestamp", Json.num t)]
      | none => []) ++
     (match b.rawEvent with
      | some j => [("rawEvent", j)]
      | none => []))

/-- A string field with omitempty: dropped when empty. -/
def strFieldOmitempty (k : String) (v : String) : List (String × Json) :=
  if v = "" then [] else [(k, .str v)]

/-- An `interface{}` field with omitempty: dropped when nil. -/
def jsonFieldOmitempty (k : String) (v : Option Json) : List (String × Json) :=
  match v with
  | none => []
  | some j => [(k, j)]

/-- `json.Marshal` image of a ToolCall (types.go lines 150-154). -/
def toolCallToJson (t : ToolCall) : Json :=
  .obj [("id", .str t.id), ("type", .str t.type),
    ("function", .obj [("name", .str t.function.name),
      ("arguments", .str t.function.arguments)])]

/-- Header fields of a message: `id`, `role`, optional `name`. -/
def baseMessageFields (b : BaseMessage) : List (String × Json) :=
  ("id", .str b.id) :: ("role", .str b.role) :: strFieldOmitempty "name" b.name

/-- `json.Marshal` image of a Message value through its concrete struct. -/
def messageToJson : Message → Json
  | .developer m => .obj (baseMessageFields m.base ++ [("content", .str m.content)])
  | .system m => .obj (baseMessageFields m.base ++ [("content", .str m.content)])
  | .assistant m => .obj (baseMessageFields m.base ++
      strFieldOmitempty "content" m.content ++
      (if m.toolCalls.isEmpty then []
       else [("toolCalls", .arr (m.toolCalls.map toolCallToJson))]))
  | .user m => .obj (baseMessageFields m.base ++ [("content", .str m.content)])
  | .tool m => .obj (baseMessageFields m.base ++ [("content", .str m.content),
      ("toolCallId", .str m.toolCallId)] ++ strFieldOmitempty "error" m.error)

/-- `json.Marshal` image of an Event value through its concrete struct. -/
def eventToJson : Event → Json
  | .runStarted e => .obj (baseEventFields e.base ++
      [("threadId", .str e.threadId), ("runId", .str e.runId)])
  | .runFinished e => .obj (baseEventFields e.base ++
      [("threadId", .str e.threadId), ("runId", .str e.runId)] ++
      jsonFieldOmitempty "result" e.result)
  | .runError e => .obj (baseEventFields e.base ++
      [("message", .str e.message)] ++ strFieldOmitempty "code" e.code)
  | .stepStarted e => .obj (baseEventFields e.base ++ [("stepName", .str e.stepName)])
  | .stepFinished e => .obj (baseEventFields e.base ++ [("stepName", .str e.stepName)])
  | .textMessageStart e => .obj (baseEventFields e.base ++
      [("messageId", .str e.messageId), ("role", .str e.role)])
  | .textMessageContent e => .obj (baseEventFields e.base ++
      [("messageId", .str e.messageId), ("delta", .str e.delta)])
  | .textMessageEnd e => .obj (baseEventFields e.base ++ [("messageId", .str e.messageId)])
  | .toolCallStart e => .obj (baseEventFields e.base ++
      [("toolCallId", .str e.toolCallId), ("toolCallName", .str e.toolCallName)] ++
      strFieldOmitempty "parentMessageId" e.parentMessageId)
  | .toolCallArgs e => .obj (baseEventFields e.base ++
      [("toolCallId", .str e.toolCallId), ("delta", .str e.delta)])
  | .toolCallEnd e => .obj (baseEventFields e.base ++ [("toolCallId", .str e.toolCallId)])
  | .toolCallResult e => .obj (baseEventFields e.base ++
      [("messageId", .str e.messageId), ("toolCallId", .str e.toolCallId),
       ("content", .str e.content)] ++ strFieldOmitempty "role" e.role)
  | .stateSnapshot e => .obj (baseEventFields e.base ++
      [("snapshot", jsonOrNull e.snapshot)])
  | .stateDelta e => .obj (baseEventFields e.base ++
      [("delta", match e.delta with
        | none => Json.null
        | some xs => Json.arr xs)])
  | .messagesSnapshot e => .obj (baseEventFields e.base ++
      [("messages", match e.messages with
        | none => Json.null
        | some ms => Json.arr (ms.map messageToJson))])
  | .raw e => .obj (baseEventFields e.base ++
      [("event", jsonOrNull e.event)] ++ strFieldOmitempty "source" e.source)
  | .custom e => .obj (baseEventFields e.base ++
      [("name", .str e.name), ("value", jsonOrNull e.value)])

/-- `EncodeEvent` (codec.go lines 68-79): validate, then marshal.
Marshalling a value made of strings, integers and decoded JSON cannot
fail in Go, so the `ErrMarshalFailed` path is unreachable here. -/
def EncodeEvent (event : Event) : GoResult (List Char) :=
  match event.Validate with
  | some err => ⟨none, some (errWrap .validationFailed err.msg)⟩
  | none => ⟨some (renderJson (eventToJson event)), none⟩

/-- `EncodeMessage` (codec.go lines 82-93). -/
def EncodeMessage (message : Message) : GoResult (List Char) :=
  match message.Validate with
  | some err => ⟨none, some (errWrap .validationFailed err.msg)⟩
  | none => ⟨some (renderJson (messageToJson message)), none⟩

/-! ## Unmarshalling (`json.Unmarshal` into the package structs)

Struct unmarshalling per `encoding/json`: the value must be an object
(or `null`, which leaves the zero value); unknown keys are ignored; on a
duplicate key the last occurrence wins; a type mismatch on a known field
is an error.  `null` for any field leaves that field's zero value. -/

/-- Last-wins field lookup. -/
def lookupField (fs : List (String × Json)) (k : String) : Option Json :=
  fs.foldl (fun acc p => if p.1 = k then some p.2 else acc) none

/-- Unmarshal a string-typed field (absent or null gives ""). -/
def getStr (fs : List (String × Json)) (k : String) : Except GoError String :=
  match lookupField fs k with
  | none => .ok ""
  | some .null => .ok ""
  | some (.str s) => .ok s
  | some _ => .error (errPlain ("json: cannot unmarshal value into Go struct field " ++ k ++
      " of type string"))

/-- Unmarshal an optional integer field (`*int64`). -/
def getOptInt (fs : List (String × Json)) (k : String) : Except GoError (Option Int) :=
  match lookupField fs k with
  | none => .ok none
  | some .null => .ok none
  | some (.num n) => .ok (some n)
  | some _ => .error (errPlain ("json: cannot unmarshal value into Go struct field " ++ k ++
      " of type int64"))

/-- Unmarshal an `interface{}` field: any JSON is accepted, null gives
the nil interface. -/
def getOptJson (fs : List (String × Json)) (k : String) : Option Json :=
  match lookupField fs k with
  | none => none
  | some .null => none
  | some j => some j

/-- Unmarshal a `[]interface{}` field (absent or null gives the nil
slice). -/
def getOptArr (fs : List (String × Json)) (k : String) : Except GoError (Option (List Json)) :=
  match lookupField fs k with
  | none => .ok none
  | some .null => .ok none
  | some (.arr xs) => .ok (some xs)
  | some _ => .error (errPlain ("json: cannot unmarshal value into Go struct field " ++ k ++
      " of type []interface \x7b\x7d"))

/-- Unmarshal the `[]Message` field.  `Message` is a non-empty interface
with no `UnmarshalJSON`, so `encoding/json` refuses to fill any element:
a non-empty array always fails.  (A `null` element would be stored as a
nil `Message` and make the later `Validate` loop panic in Go; the model
folds that corner into the same decode failure.) -/
def getMessages (fs : List (String × Json)) (k : String) :
    Except GoError (Option (List Message)) :=
  match lookupField fs k with
  | none => .ok none
  | some .null => .ok none
  | some (.arr []) => .ok (some [])
  | some (.arr (_ :: _)) =>
    .error (errPlain "json: cannot unmarshal object into Go value of type agui.Message")
  | some _ => .error (errPlain ("json: cannot unmarshal value into Go struct field " ++ k ++
      " of type []agui.Message"))

/-- Zero value of FunctionCall. -/
def FunctionCall.zero : FunctionCall := ⟨"", ""⟩

/-- Zero value of ToolCall. -/
def ToolCall.zero : ToolCall := ⟨"", "", FunctionCall.zero⟩

/-- Unmarshal one ToolCall element (a struct, so `encoding/json` fills it
normally). -/
def unmarshalToolCall (j : Json) : Except GoError ToolCall :=
  match j with
  | .null => .ok ToolCall.zero
  | .obj fs => do
    let i ← getStr fs "id"
    let t ← getStr fs "type"
    let f ←
      match lookupField fs "function" with
      | none => pure FunctionCall.zero
      | some .null => pure FunctionCall.zero
      | some (.obj ffs) => do
        let n ← getStr ffs "name"
        let a ← getStr ffs "arguments"
        pure (⟨n, a⟩ : FunctionCall)
      | some _ => .error (errPlain
          "json: cannot unmarshal value into Go struct field function of type agui.FunctionCall")
    .ok ⟨i, t, f⟩
  | _ => .error (errPlain "json: cannot unmarshal value into Go value of type agui.ToolCall")

/-- Unmarshal the `[]ToolCall` field. -/
def getToolCalls (fs : List (String × Json)) (k : String) : Except GoError (List ToolCall) :=
  match lookupField fs k with
  | none => .ok []
  | some .null => .ok []
  | some (.arr xs) => xs.mapM unmarshalToolCall
  | some _ => .error (errPlain ("json: cannot unmarshal value into Go struct field " ++ k ++
      " of type []agui.ToolCall"))

/-- Unmarshal the embedded BaseEvent header fields. -/
def unmarshalBaseEvent (fs : List (String × Json)) : Except GoError BaseEvent := do
  let t ← getStr fs "type"
  let ts ← getOptInt fs "timestamp"
  .ok ⟨t, ts, getOptJson fs "rawEvent"⟩

/-- Unmarshal the embedded BaseMessage header fields. -/
def unmarshalBaseMessage (fs : List (String × Json)) : Except GoError BaseMessage := do
  let i ← getStr fs "id"
  let r ← getStr fs "role"
  let n ← getStr fs "name"
  .ok ⟨i, r, n⟩

/-- Unmarshal a struct-typed top value: object fills fields, null leaves
the zero value, anything else is a type error. -/
def unmarshalStruct {α : Type} (fill : List (String × Json) → Except GoError α) (zero : α)
    (tname : String) : Json → Except GoError α
  | .null => .ok zero
  | .obj fs => fill fs
  | _ => .error (errPlain ("json: cannot unmarshal value into Go value of type " ++ tname))

/-- Zero header. -/
def BaseEvent.zero : BaseEvent := ⟨"", none, none⟩

/-- Zero message header. -/
def BaseMessage.zero : BaseMessage := ⟨"", "", ""⟩

def unmarshalRunStartedEvent : Json → Except GoError RunStartedEvent :=
  unmarshalStruct (fun fs => do
    let b ← unmarshalBaseEvent fs
    let t ← getStr fs "threadId"
    let r ← getStr fs "runId"
    .ok ⟨b, t, r⟩) ⟨BaseEvent.zero, "", ""⟩ "agui.RunStartedEvent"

def unmarshalRunFinishedEvent : Json → Except GoError RunFinishedEvent :=
  unmarshalStruct (fun fs => do
    let b ← unmarshalBaseEvent fs
    let t ← getStr fs "threadId"
    let r ← getStr fs "runId"
    .ok ⟨b, t, r, getOptJson fs "result"⟩) ⟨BaseEvent.zero, "", "", none⟩ "agui.RunFinishedEvent"

def unmarshalRunErrorEvent : Json → Except GoError RunErrorEvent :=
  unmarshalStruct (fun fs => do
    let b ← unmarshalBaseEvent fs
    let m ← getStr fs "message"
    let c ← getStr fs "code"
    .ok ⟨b, m, c⟩) ⟨BaseEvent.zero, "", ""⟩ "agui.RunErrorEvent"

def unmarshalStepStartedEvent : Json → Except GoError StepStartedEvent :=
  unmarshalStruct (fun fs => do
    let b ← unmarshalBaseEvent fs
    let s ← getStr fs "stepName"
    .ok ⟨b, s⟩) ⟨BaseEvent.zero, ""⟩ "agui.StepStartedEvent"

def unmarshalStepFinishedEvent : Json → Except GoError StepFinishedEvent :=
  unmarshalStruct (fun fs => do
    let b ← unmarshalBaseEvent fs
    let s ← getStr fs "stepName"
    .ok ⟨b, s⟩) ⟨BaseEvent.zero, ""⟩ "agui.StepFinishedEvent"

def unmarshalTextMessageStartEvent : Json → Except GoError TextMessageStartEvent :=
  unmarshalStruct (fun fs => do
    let b ← unmarshalBaseEvent fs
    let m ← getStr fs "messageId"
    let r ← getStr fs "role"
    .ok ⟨b, m, r⟩) ⟨BaseEvent.zero, "", ""⟩ "agui.TextMessageStartEvent"

def unmarshalTextMessageContentEvent : Json → Except GoError TextMessageContentEvent :=
  unmarshalStruct (fun fs => do
    let b ← unmarshalBaseEvent fs
    let m ← getStr fs "messageId"
    let d ← getStr fs "delta"
    .ok ⟨b, m, d⟩) ⟨BaseEvent.zero, "", ""⟩ "agui.TextMessageContentEvent"

def unmarshalTextMessageEndEvent : Json → Except GoError TextMessageEndEvent :=
  unmarshalStruct (fun fs => do
    let b ← unmarshalBaseEvent fs
    let m ← getStr fs "messageId"
    .ok ⟨b, m⟩) ⟨BaseEvent.zero, ""⟩ "agui.TextMessageEndEvent"

def unmarshalToolCallStartEvent : Json → Except GoError ToolCallStartEvent :=
  unmarshalStruct (fun fs => do
    let b ← unmarshalBaseEvent fs
    let i ← getStr fs "toolCallId"
    let n ← getStr fs "toolCallName"
    let p ← getStr fs "parentMessageId"
    .ok ⟨b, i, n, p⟩) ⟨BaseEvent.zero, "", "", ""⟩ "agui.ToolCallStartEvent"

def unmarshalToolCallArgsEvent : Json → Except GoError ToolCallArgsEvent :=
  unmarshalStruct (fun fs => do
    let b ← unmarshalBaseEvent fs
    let i ← getStr fs "toolCallId"
    let d ← getStr fs "delta"
    .ok ⟨b, i, d⟩) ⟨BaseEvent.zero, "", ""⟩ "agui.ToolCallArgsEvent"

def unmarshalToolCallEndEvent : Json → Except GoError ToolCallEndEvent :=
  unmarshalStruct (fun fs => do
    let b ← unmarshalBaseEvent fs
    let i ← getStr fs "toolCallId"
    .ok ⟨b, i⟩) ⟨BaseEvent.zero, ""⟩ "agui.ToolCallEndEvent"

def unmarshalToolCallResultEvent : Json → Except GoError ToolCallResultEvent :=
  unmarshalStruct (fun fs => do
    let b ← unmarshalBaseEvent fs
    let m ← getStr fs "messageId"
    let i ← getStr fs "toolCallId"
    let c ← getStr fs "content"
    let r ← getStr fs "role"
    .ok ⟨b, m, i, c, r⟩) ⟨BaseEvent.zero, "", "", "", ""⟩ "agui.ToolCallResultEvent"

def unmarshalStateSnapshotEvent : Json → Except GoError StateSnapshotEvent :=
  unmarshalStruct (fun fs => do
    let b ← unmarshalBaseEvent fs
    .ok ⟨b, getOptJson fs "snapshot"⟩) ⟨BaseEvent.zero, none⟩ "agui.StateSnapshotEvent"

def unmarshalStateDeltaEvent : Json → Except GoError StateDeltaEvent :=
  unmarshalStruct (fun fs => do
    let b ← unmarshalBaseEvent fs
    let d ← getOptArr fs "delta"
    .ok ⟨b, d⟩) ⟨BaseEvent.zero, none⟩ "agui.StateDeltaEvent"

def unmarshalMessagesSnapshotEvent : Json → Except GoError MessagesSnapshotEvent :=
  unmarshalStruct (fun fs => do
    let b ← unmarshalBaseEvent fs
    let m ← getMessages fs "messages"
    .ok ⟨b, m⟩) ⟨BaseEvent.zero, none⟩ "agui.MessagesSnapshotEvent"

def unmarshalRawEvent : Json → Except GoError RawEvent :=
  unmarshalStruct (fun fs => do
    let b ← unmarshalBaseEvent fs
    let s ← getStr fs "source"
    .ok ⟨b, getOptJson fs "event", s⟩) ⟨BaseEvent.zero, none, ""⟩ "agui.RawEvent"

def unmarshalCustomEvent : Json → Except GoError CustomEvent :=
  unmarshalStruct (fun fs => do
    let b ← unmarshalBaseEvent fs
    let n ← getStr fs "name"
    .ok ⟨b, n, getOptJson fs "value"⟩) ⟨BaseEvent.zero, "", none⟩ "agui.CustomEvent"

def unmarshalDeveloperMessage : Json → Except GoError DeveloperMessage :=
  unmarshalStruct (fun fs => do
    let b ← unmarshalBaseMessage fs
    let c ← getStr fs "content"
    .ok ⟨b, c⟩) ⟨BaseMessage.zero, ""⟩ "agui.DeveloperMessage"

def unmarshalSystemMessage : Json → Except GoError SystemMessage :=
  unmarshalStruct (fun fs => do
    let b ← unmarshalBaseMessage fs
    let c ← getStr fs "content"
    .ok ⟨b, c⟩) ⟨BaseMessage.zero, ""⟩ "agui.SystemMessage"

def unmarshalAssistantMessage : Json → Except GoError AssistantMessage :=
  unmarshalStruct (fun fs => do
    let b ← unmarshalBaseMessage fs
    let c ← getStr fs "content"
    let tc ← getToolCalls fs "toolCalls"
    .ok ⟨b, c, tc⟩) ⟨BaseMessage.zero, "", []⟩ "agui.AssistantMessage"

def unmarshalUserMessage : Json → Except GoError UserMessage :=
  unmarshalStruct (fun fs => do
    let b ← unmarshalBaseMessage fs
    let c ← getStr fs "content"
    .ok ⟨b, c⟩) ⟨BaseMessage.zero, ""⟩ "agui.UserMessage"

def unmarshalToolMessage : Json → Except GoError ToolMessage :=
  unmarshalStruct (fun fs => do
    let b ← unmarshalBaseMessage fs
    let c ← getStr fs "content"
    let i ← getStr fs "toolCallId"
    let e ← getStr fs "error"
    .ok ⟨b, c, i, e⟩) ⟨BaseMessage.zero, "", "", ""⟩ "agui.ToolMessage"

/-! ## Probe decode (codec.go) -/

/-- EventProbe (codec.go lines 20-25).  `rawData` carries the original
bytes; probe pass and full pass observe the byte-identical input, so the
model stores the parsed value once. -/
structure EventProbe where
  type : EventType
  timestamp : Option Int
  rawEvent : Option Json
  rawData : Json
deriving DecidableEq, Repr

/-- MessageProbe (codec.go lines 28-33). -/
structure MessageProbe where
  role : Role
  id : String
  name : String
  rawData : Json
deriving DecidableEq, Repr

/-- Probe unmarshal of an event payload (the `json:"-"` RawData field is
not populated by `json.Unmarshal`; callers overwrite it). -/
def unmarshalEventProbe (j : Json) : Except GoError EventProbe :=
  unmarshalStruct (fun fs => do
    let b ← unmarshalBaseEvent fs
    .ok ⟨b.type, b.timestamp, b.rawEvent, Json.null⟩)
    ⟨"", none, none, Json.null⟩ "agui.EventProbe" j

/-- Probe unmarshal of a message payload. -/
def unmarshalMessageProbe (j : Json) : Except GoError MessageProbe :=
  unmarshalStruct (fun fs => do
    let r ← getStr fs "role"
    let i ← getStr fs "id"
    let n ← getStr fs "name"
    .ok ⟨r, i, n, Json.null⟩) ⟨"", "", "", Json.null⟩ "agui.MessageProbe" j

/-- One dispatch arm of `decodeEventFromProbe`: full parse of the original
bytes into the selected variant, then `return &event, event.Validate()` -
the decoded value is returned together with whatever the validation said. -/
def decodeAs {V : Type} (unm : Json → Except GoError V) (vld : V → Option GoError)
    (inj : V → Event) (tname : String) (data : Json) : GoResult Event :=
  match unm data with
  | .error e => ⟨none, some (errWrap .unmarshalFailed (tname ++ ": " ++ e.msg))⟩
  | .ok v => ⟨some (inj v), vld v⟩

/-- `decodeEventFromProbe` (codec.go lines 168-304).  The probe's RawData
is always set by the callers in this package, so the dead re-marshal
branch for a nil RawData is not modelled. -/
def decodeEventFromProbe (probe : EventProbe) : GoResult Event :=
  if probe.type = EventTypeRunStarted then
    decodeAs unmarshalRunStartedEvent RunStartedEvent.Validate .runStarted "RunStartedEvent" probe.rawData
  else if probe.type = EventTypeRunFinished then
    decodeAs unmarshalRunFinishedEvent RunFinishedEvent.Validate .runFinished
      "RunFinishedEvent" probe.rawData
  else if probe.type = EventTypeRunError then
    decodeAs unmarshalRunErrorEvent RunErrorEvent.Validate .runError "RunErrorEvent" probe.rawData
  else if probe.type = EventTypeStepStarted then
    decodeAs unmarshalStepStartedEvent StepStartedEvent.Validate .stepStarted
      "StepStartedEvent" probe.rawData
  else if probe.type = EventTypeStepFinished then
    decodeAs unmarshalStepFinishedEvent StepFinishedEvent.Validate .stepFinished
      "StepFinishedEvent" probe.rawData
  else if probe.type = EventTypeTextMessageStart then
    decodeAs unmarshalTextMessageStartEvent TextMessageStartEvent.Validate .textMessageStart
      "TextMessageStartEvent" probe.rawData
  else if probe.type = EventTypeTextMessageContent then
    decodeAs unmarshalTextMessageContentEvent TextMessageContentEvent.Validate
      .textMessageContent "TextMessageContentEvent" probe.rawData
  else if probe.type = EventTypeTextMessageEnd then
    decodeAs unmarshalTextMessageEndEvent TextMessageEndEvent.Validate .textMessageEnd
      "TextMessageEndEvent" probe.rawData
  else if probe.type = EventTypeToolCallStart then
    decodeAs unmarshalToolCallStartEvent ToolCallStartEvent.Validate .toolCallStart
      "ToolCallStartEvent" probe.rawData
  else if probe.type = EventTypeToolCallArgs then
    decodeAs unmarshalToolCallArgsEvent ToolCallArgsEvent.Validate .toolCallArgs
      "ToolCallArgsEvent" probe.rawData
  else if probe.type = EventTypeToolCallEnd then
    decodeAs unmarshalToolCallEndEvent ToolCallEndEvent.Validate .toolCallEnd
      "ToolCallEndEvent" probe.rawData
  else if probe.type = EventTypeToolCallResult then
    decodeAs unmarshalToolCallResultEvent ToolCallResultEvent.Validate .toolCallResult
      "ToolCallResultEvent" probe.rawData
  else if probe.type = EventTypeStateSnapshot then
    decodeAs unmarshalStateSnapshotEvent StateSnapshotEvent.Validate .stateSnapshot
      "StateSnapshotEvent" probe.rawData
  else if probe.type = EventTypeStateDelta then
    decodeAs unmarshalStateDeltaEvent StateDeltaEvent.Validate .stateDelta
      "StateDeltaEvent" probe.rawData
  else if probe.type = EventTypeMessagesSnapshot then
    decodeAs unmarshalMessagesSnapshotEvent MessagesSnapshotEvent.Validate .messagesSnapshot
      "MessagesSnapshotEvent" probe.rawData
  else if probe.type = EventTypeRaw then
    decodeAs unmarshalRawEvent RawEvent.Validate .raw "RawEvent" probe.rawData
  else if probe.type = EventTypeCustom then
    decodeAs unmarshalCustomEvent CustomEvent.Validate .custom "CustomEvent" probe.rawData
  else
    ⟨none, some (errWrap .invalidEventType ("unknown event type: " ++ probe.type))⟩

/-- One dispatch arm of `decodeMessageFromProbe`. -/
def decodeMsgAs {V : Type} (unm : Json → Except GoError V) (vld : V → Option GoError)
    (inj : V → Message) (tname : String) (data : Json) : GoResult Message :=
  match unm data with
  | .error e => ⟨none, some (errWrap .unmarshalFailed (tname ++ ": " ++ e.msg))⟩
  | .ok v => ⟨some (inj v), vld v⟩

/-- `decodeMessageFromProbe` (codec.go lines 307-359). -/
def decodeMessageFromProbe (probe : MessageProbe) : GoResult Message :=
  if probe.role = RoleDeveloper then
    decodeMsgAs unmarshalDeveloperMessage DeveloperMessage.Validate .developer
      "DeveloperMessage" probe.rawData
  else if probe.role = RoleSystem then
    decodeMsgAs unmarshalSystemMessage SystemMessage.Validate .system "SystemMessage" probe.rawData
  else if probe.role = RoleAssistant then
    decodeMsgAs unmarshalAssistantMessage AssistantMessage.Validate .assistant
      "AssistantMessage" probe.rawData
  else if probe.role = RoleUser then
    decodeMsgAs unmarshalUserMessage UserMessage.Validate .user "UserMessage" probe.rawData
  else if probe.role = RoleTool then
    decodeMsgAs unmarshalToolMessage ToolMessage.Validate .tool "ToolMessage" probe.rawData
  else
    ⟨none, some (errWrap .invalidMessageType ("unknown message role: " ++ probe.role))⟩

/-- Common path of every event decode once the bytes parsed to a JSON
value: probe unmarshal (wrapped in ErrUnmarshalFailed on failure), then
dispatch over the same value. -/
def decodeEventFromJsonValue (j : Json) : GoResult Event :=
  match unmarshalEventProbe j with
  | .error e => ⟨none, some (errWrap .unmarshalFailed e.msg)⟩
  | .ok p => decodeEventFromProbe { p with rawData := j }

/-- Common path of every message decode once the bytes parsed. -/
def decodeMessageFromJsonValue (j : Json) : GoResult Message :=
  match unmarshalMessageProbe j with
  | .error e => ⟨none, some (errWrap .unmarshalFailed e.msg)⟩
  | .ok p => decodeMessageFromProbe { p with rawData := j }

/-- `DecodeEventFromBytes` (codec.go lines 146-154): probe unmarshal of
the whole input, then dispatch on the probed type over the same bytes. -/
def DecodeEventFromBytes (data : List Char) : GoResult Event :=
  match parseJsonChars data with
  | none => ⟨none, some (errWrap .unmarshalFailed "invalid character in JSON input")⟩
  | some j => decodeEventFromJsonValue j

/-- `DecodeMessageFromBytes` (codec.go lines 157-165). -/
def DecodeMessageFromBytes (data : List Char) : GoResult Message :=
  match parseJsonChars data with
  | none => ⟨none, some (errWrap .unmarshalFailed "invalid character in JSON input")⟩
  | some j => decodeMessageFromJsonValue j

/-- `Decoder.DecodeEvent` (codec.go lines 106-123): read the next JSON
value off the stream, then the same probe-and-dispatch path.  The decoder
state is the remaining input; io.EOF is returned unwrapped on clean end
of input. -/
def Decoder.DecodeEvent (cs : List Char) : GoResult Event × List Char :=
  match parseOneJson cs with
  | .eof => (⟨none, some ⟨some .ioEOF, "EOF"⟩⟩, [])
  | .fail => (⟨none, some (errWrap .unmarshalFailed "invalid character in JSON input")⟩, cs)
  | .ok j rest => (decodeEventFromJsonValue j, rest)

/-- `Decoder.DecodeMessage` (codec.go lines 126-143). -/
def Decoder.DecodeMessage (cs : List Char) : GoResult Message × List Char :=
  match parseOneJson cs with
  | .eof => (⟨none, some ⟨some .ioEOF, "EOF"⟩⟩, [])
  | .fail => (⟨none, some (errWrap .unmarshalFailed "invalid character in JSON input")⟩, cs)
  | .ok j rest => (decodeMessageFromJsonValue j, rest)

/-! ## Stream decoding (codec.go lines 374-410)

`StreamDecoder.DecodeEvents` runs one producer goroutine that reads one
JSON value per iteration, decodes it, and sends it on the buffered event
channel; the first error goes to the error channel and stops the loop;
reaching clean end of input stops it with no error.  With a single
producer, channel delivery preserves loop order, so the observable trace
is the list of delivered events plus the optional terminal error; both
channels close exactly when the loop returns.  The loop is fueled (one
unit per value); `DecodeEvents` supplies `length + 1`, ample because
every parsed value consumes at least one byte. -/

def decodeEventsLoop : Nat → List Char → List Event × Option GoError
  | 0, _ => ([], none)
  | fuel + 1, cs =>
    match parseOneJson cs with
    | .eof => ([], none)
    | .fail => ([], some (errWrap .unmarshalFailed "invalid character in JSON input"))
    | .ok j rest =>
      let r := decodeEventFromJsonValue j
      match r.err with
      | some e => ([], some e)
      | none =>
        match r.val with
        | some ev =>
          let t := decodeEventsLoop fuel rest
          (ev :: t.1, t.2)
        | none => ([], none)

/-- Observable trace of `StreamDecoder.DecodeEvents`: events delivered in
order, and the error delivered before the channels close, if any. -/
def DecodeEvents (cs : List Char) : List Event × Option GoError :=
  decodeEventsLoop (cs.length + 1) cs

/-- A stream prefix that parses into the given JSON values, each decoding
cleanly to an event, leaving the given tail unconsumed. -/
inductive StreamOk : List Char → List Event → List Char → Prop where
  | nil (cs : List Char) : StreamOk cs [] cs
  | cons (cs : List Char) (j : Json) (rest : List Char) (ev : Event) (evs : List Event)
      (tail : List Char) (hp : parseOneJson cs = .ok j rest)
      (hdec : decodeEventFromJsonValue j = ⟨some ev, none⟩)
      (hrest : StreamOk rest evs tail) : StreamOk cs (ev :: evs) tail

/-! ## Concrete inputs examined in the analysis -/

/-- A fully valid MessagesSnapshotEvent holding one valid user message. -/
def mseSnapshotExample : Event :=
  .messagesSnapshot ⟨⟨EventTypeMessagesSnapshot, none, none⟩,
    some [.user ⟨⟨"m1", RoleUser, ""⟩, "hi"⟩]⟩

/-- A well-formed object whose RunStarted payload fails validation
(missing threadId and runId). -/
def runStartedNoThread : List Char := "\x7b\"type\":\"RUN_STARTED\"\x7d".data

/-- Bytes that are not well-formed JSON. -/
def malformedInput : List Char := "\x7bbad".data

/-- Well-formed JSON whose `delta` field has the wrong type for the
selected TextMessageContentEvent variant. -/
def shapeMismatchInput : List Char :=
  "\x7b\"type\":\"TEXT_MESSAGE_CONTENT\",\"delta\":5\x7d".data

/-- A well-formed TextMessageEnd object whose payload fails validation
(missing messageId). -/
def emptyIdTextEnd : List Char := "\x7b\"type\":\"TEXT_MESSAGE_END\"\x7d".data

/-- The C4 bytes with a non-empty delta. -/
def tmcGood : List Char :=
  "\x7b\"type\":\"TEXT_MESSAGE_CONTENT\",\"messageId\":\"m1\",\"delta\":\"hi\"\x7d".data

/-- The C4 bytes with `delta` set to the empty string. -/
def tmcEmptyDelta : List Char :=
  "\x7b\"type\":\"TEXT_MESSAGE_CONTENT\",\"messageId\":\"m1\",\"delta\":\"\"\x7d".data

/-- Two valid events for the stream-ordering witness. -/
def streamPairExample : List Event :=
  [.runStarted ⟨⟨EventTypeRunStarted, none, none⟩, "thread_1", "run_1"⟩,
   .textMessageEnd ⟨⟨EventTypeTextMessageEnd, none, none⟩, "msg_1"⟩]

/-- The valid first value of the fail-fast witness stream. -/
def failFastHead : Event :=
  .runStarted ⟨⟨EventTypeRunStarted, none, none⟩, "thread_2", "run_2"⟩

/-- A stream holding one good encoded event followed by garbage bytes. -/
def failFastStream : List Char := renderJson (eventToJson failFastHead) ++ "]".data

/-! ## Validation errors carry no sentinel

Every error the `Validate` methods build comes from plain `fmt.Errorf`
(possibly nested through the index-reporting wrappers), so `errors.Is`
finds none of the package sentinels in it. -/

theorem firstErrIdx_wraps {α : Type} (vld : α → Option GoError) (pre : String)
    (hv : ∀ x e, vld x = some e → e.wraps = none) :
    ∀ (i : Nat) (xs : List α) (e : GoError), firstErrIdx vld pre i xs = some e →
      e.wraps = none := by
  intro i xs
  induction xs generalizing i with
  | nil => intro e h; simp [firstErrIdx] at h
  | cons x xs ih =>
    intro e h
    rw [firstErrIdx] at h
    cases hx : vld x with
    | some e0 =>
      rw [hx] at h
      cases h
      exact hv x e0 hx
    | none =>
      rw [hx] at h
      exact ih (i + 1) e h

theorem FunctionCall_Validate_wraps (f : FunctionCall) (e : GoError)
    (h : f.Validate = some e) : e.wraps = none := by
  unfold FunctionCall.Validate at h
  split_ifs at h
  · cases h; rfl
  · cases h; rfl
  · split at h
    · cases h; rfl
    · cases h

theorem ToolCall_Validate_wraps (t : ToolCall) (e : GoError)
    (h : t.Validate = some e) : e.wraps = none := by
  unfold ToolCall.Validate at h
  split_ifs at h <;>
    first
      | (cases h; rfl)
      | exact FunctionCall_Validate_wraps t.function e h

theorem BaseMessage_Validate_wraps (b : BaseMessage) (e : GoError)
    (h : b.Validate = some e) : e.wraps = none := by
  unfold BaseMessage.Validate at h
  split_ifs at h
  · cases h; rfl
  · cases h; rfl

theorem DeveloperMessage_Validate_wraps (m : DeveloperMessage) (e : GoError)
    (h : m.Validate = some e) : e.wraps = none := by
  unfold DeveloperMessage.Validate at h
  cases hb : m.base.Validate with
  | some eb => rw [hb] at h; cases h; exact BaseMessage_Validate_wraps m.base _ hb
  | none =>
    rw [hb] at h
    split_ifs at h <;> (cases h; rfl)

theorem SystemMessage_Validate_wraps (m : SystemMessage) (e : GoError)
    (h : m.Validate = some e) : e.wraps = none := by
  unfold SystemMessage.Validate at h
  cases hb : m.base.Validate with
  | some eb => rw [hb] at h; cases h; exact BaseMessage_Validate_wraps m.base _ hb
  | none =>
    rw [hb] at h
    split_ifs at h <;> (cases h; rfl)

theorem AssistantMessage_Validate_wraps (m : AssistantMessage) (e : GoError)
    (h : m.Validate = some e) : e.wraps = none := by
  unfold AssistantMessage.Validate at h
  cases hb : m.base.Validate with
  | some eb => rw [hb] at h; cases h; exact BaseMessage_Validate_wraps m.base _ hb
  | none =>
    rw [hb] at h
    split_ifs at h
    · cases h; rfl
    · exact firstErrIdx_wraps ToolCall.Validate _ ToolCall_Validate_wraps 0 m.toolCalls e h

theorem UserMessage_Validate_wraps (m : UserMessage) (e : GoError)
    (h : m.Validate = some e) : e.wraps = none := by
  unfold UserMessage.Validate at h
  cases hb : m.base.Validate with
  | some eb => rw [hb] at h; cases h; exact BaseMessage_Validate_wraps m.base _ hb
  | none =>
    rw [hb] at h
    split_ifs at h <;> (cases h; rfl)

theorem ToolMessage_Validate_wraps (m : ToolMessage) (e : GoError)
    (h : m.Validate = some e) : e.wraps = none := by
  unfold ToolMessage.Validate at h
  cases hb : m.base.Validate with
  | some eb => rw [hb] at h; cases h; exact BaseMessage_Validate_wraps m.base _ hb
  | none =>
    rw [hb] at h
    split_ifs at h <;> (cases h; rfl)

theorem Message_Validate_wraps (m : Message) (e : GoError)
    (h : m.Validate = some e) : e.wraps = none := by
  cases m with
  | developer m => exact DeveloperMessage_Validate_wraps m e h
  | system m => exact SystemMessage_Validate_wraps m e h
  | assistant m => exact AssistantMessage_Validate_wraps m e h
  | user m => exact UserMessage_Validate_wraps m e h
  | tool m => exact ToolMessage_Validate_wraps m e h

theorem BaseEvent_Validate_wraps (b : BaseEvent) (e : GoError)
    (h : b.Validate = some e) : e.wraps = none := by
  unfold BaseEvent.Validate at h
  split_ifs at h
  cases h
  rfl

theorem Event_Validate_wraps (ev : Event) (e : GoError)
    (h : ev.Validate = some e) : e.wraps = none := by
  cases ev with
  | messagesSnapshot x =>
    replace h : x.Validate = some e := h
    unfold MessagesSnapshotEvent.Validate at h
    cases hb : x.base.Validate with
    | some eb => rw [hb] at h; cases h; exact BaseEvent_Validate_wraps x.base _ hb
    | none =>
      rw [hb] at h
      by_cases ht : x.base.type ≠ EventTypeMessagesSnapshot
      · rw [if_pos ht] at h
        cases h; rfl
      · rw [if_neg ht] at h
        cases hm : x.messages with
        | none => rw [hm] at h; cases h; rfl
        | some msgs =>
          rw [hm] at h
          exact firstErrIdx_wraps Message.Validate _ Message_Validate_wraps 0 msgs e h
  | stateSnapshot x =>
    replace h : x.Validate = some e := h
    unfold StateSnapshotEvent.Validate at h
    cases hb : x.base.Validate with
    | some eb => rw [hb] at h; cases h; exact BaseEvent_Validate_wraps x.base _ hb
    | none =>
      rw [hb] at h
      by_cases ht : x.base.type ≠ EventTypeStateSnapshot
      · rw [if_pos ht] at h; cases h; rfl
      · rw [if_neg ht] at h
        cases hs : x.snapshot with
        | none => rw [hs] at h; cases h; rfl
        | some s => rw [hs] at h; cases h
  | stateDelta x =>
    replace h : x.Validate = some e := h
    unfold StateDeltaEvent.Validate at h
    cases hb : x.base.Validate with
    | some eb => rw [hb] at h; cases h; exact BaseEvent_Validate_wraps x.base _ hb
    | none =>
      rw [hb] at h
      by_cases ht : x.base.type ≠ EventTypeStateDelta
      · rw [if_pos ht] at h; cases h; rfl
      · rw [if_neg ht] at h
        cases hs : x.delta with
        | none => rw [hs] at h; cases h; rfl
        | some s => rw [hs] at h; cases h
  | raw x =>
    replace h : x.Validate = some e := h
    unfold RawEvent.Validate at h
    cases hb : x.base.Validate with
    | some eb => rw [hb] at h; cases h; exact BaseEvent_Validate_wraps x.base _ hb
    | none =>
      rw [hb] at h
      by_cases ht : x.base.type ≠ EventTypeRaw
      · rw [if_pos ht] at h; cases h; rfl
      · rw [if_neg ht] at h
        cases hs : x.event with
        | none => rw [hs] at h; cases h; rfl
        | some s => rw [hs] at h; cases h
  | custom x =>
    replace h : x.Validate = some e := h
    unfold CustomEvent.Validate at h
    cases hb : x.base.Validate with
    | some eb => rw [hb] at h; cases h; exact BaseEvent_Validate_wraps x.base _ hb
    | none =>
      rw [hb] at h
      by_cases ht : x.base.type ≠ EventTypeCustom
      · rw [if_pos ht] at h; cases h; rfl
      · rw [if_neg ht] at h
        by_cases hn : x.name = ""
        · rw [if_pos hn] at h; cases h; rfl
        · rw [if_neg hn] at h
          cases hv : x.value with
          | none => rw [hv] at h; cases h; rfl
          | some v => rw [hv] at h; cases h
  | runStarted x =>
    replace h : x.Validate = some e := h
    unfold RunStartedEvent.Validate at h
    cases hb : x.base.Validate with
    | some eb => rw [hb] at h; cases h; exact BaseEvent_Validate_wraps x.base _ hb
    | none => rw [hb] at h; split_ifs at h <;> (cases h; rfl)
  | runFinished x =>
    replace h : x.Validate = some e := h
    unfold RunFinishedEvent.Validate at h
    cases hb : x.base.Validate with
    | some eb => rw [hb] at h; cases h; exact BaseEvent_Validate_wraps x.base _ hb
    | none => rw [hb] at h; split_ifs at h <;> (cases h; rfl)
  | runError x =>
    replace h : x.Validate = some e := h
    unfold RunErrorEvent.Validate at h
    cases hb : x.base.Validate with
    | some eb => rw [hb] at h; cases h; exact BaseEvent_Validate_wraps x.base _ hb
    | none => rw [hb] at h; split_ifs at h <;> (cases h; rfl)
  | stepStarted x =>
    replace h : x.Validate = some e := h
    unfold StepStartedEvent.Validate at h
    cases hb : x.base.Validate with
    | some eb => rw [hb] at h; cases h; exact BaseEvent_Validate_wraps x.base _ hb
    | none => rw [hb] at h; split_ifs at h <;> (cases h; rfl)
  | stepFinished x =>
    replace h : x.Validate = some e := h
    unfold StepFinishedEvent.Validate at h
    cases hb : x.base.Validate with
    | some eb => rw [hb] at h; cases h; exact BaseEvent_Validate_wraps x.base _ hb
    | none => rw [hb] at h; split_ifs at h <;> (cases h; rfl)
  | textMessageStart x =>
    replace h : x.Validate = some e := h
    unfold TextMessageStartEvent.Validate at h
    cases hb : x.base.Validate with
    | some eb => rw [hb] at h; cases h; exact BaseEvent_Validate_wraps x.base _ hb
    | none => rw [hb] at h; split_ifs at h <;> (cases h; rfl)
  | textMessageContent x =>
    replace h : x.Validate = some e := h
    unfold TextMessageContentEvent.Validate at h
    cases hb : x.base.Validate with
    | some eb => rw [hb] at h; cases h; exact BaseEvent_Validate_wraps x.base _ hb
    | none => rw [hb] at h; split_ifs at h <;> (cases h; rfl)
  | textMessageEnd x =>
    replace h : x.Validate = some e := h
    unfold TextMessageEndEvent.Validate at h
    cases hb : x.base.Validate with
    | some eb => rw [hb] at h; cases h; exact BaseEvent_Validate_wraps x.base _ hb
    | none => rw [hb] at h; split_ifs at h <;> (cases h; rfl)
  | toolCallStart x =>
    replace h : x.Validate = some e := h
    unfold ToolCallStartEvent.Validate at h
    cases hb : x.base.Validate with
    | some eb => rw [hb] at h; cases h; exact BaseEvent_Validate_wraps x.base _ hb
    | none => rw [hb] at h; split_ifs at h <;> (cases h; rfl)
  | toolCallArgs x =>
    replace h : x.Validate = some e := h
    unfold ToolCallArgsEvent.Validate at h
    cases hb : x.base.Validate with
    | some eb => rw [hb] at h; cases h; exact BaseEvent_Validate_wraps x.base _ hb
    | none => rw [hb] at h; split_ifs at h <;> (cases h; rfl)
  | toolCallEnd x =>
    replace h : x.Validate = some e := h
    unfold ToolCallEndEvent.Validate at h
    cases hb : x.base.Validate with
    | some eb => rw [hb] at h; cases h; exact BaseEvent_Validate_wraps x.base _ hb
    | none => rw [hb] at h; split_ifs at h <;> (cases h; rfl)
  | toolCallResult x =>
    replace h : x.Validate = some e := h
    unfold ToolCallResultEvent.Validate at h
    cases hb : x.base.Validate with
    | some eb => rw [hb] at h; cases h; exact BaseEvent_Validate_wraps x.base _ hb
    | none => rw [hb] at h; split_ifs at h <;> (cases h; rfl)

/-! ## Shape of every decode result

Each decode either fails with a sentinel-wrapped error and no value, or
returns the fully parsed variant together with exactly that variant's
validation outcome. -/

theorem decodeAs_cases_event {V : Type} (unm : Json → Except GoError V)
    (vld : V → Option GoError) (inj : V → Event) (tname : String) (data : Json)
    (hinj : ∀ v, Event.Validate (inj v) = vld v) :
    ((decodeAs unm vld inj tname data).val = none ∧
      ∃ e, (decodeAs unm vld inj tname data).err = some e ∧
        (e.wraps = some .unmarshalFailed ∨ e.wraps = some .invalidEventType)) ∨
    (∃ ev, (decodeAs unm vld inj tname data).val = some ev ∧
      (decodeAs unm vld inj tname data).err = Event.Validate ev) := by
  unfold decodeAs
  cases unm data with
  | error e => exact Or.inl ⟨rfl, _, rfl, Or.inl rfl⟩
  | ok v => exact Or.inr ⟨inj v, rfl, (hinj v).symm⟩

theorem decodeMsgAs_cases {V : Type} (unm : Json → Except GoError V)
    (vld : V → Option GoError) (inj : V → Message) (tname : String) (data : Json)
    (hinj : ∀ v, Message.Validate (inj v) = vld v) :
    ((decodeMsgAs unm vld inj tname data).val = none ∧
      ∃ e, (decodeMsgAs unm vld inj tname data).err = some e ∧
        (e.wraps = some .unmarshalFailed ∨ e.wraps = some .invalidMessageType)) ∨
    (∃ m, (decodeMsgAs unm vld inj tname data).val = some m ∧
      (decodeMsgAs unm vld inj tname data).err = Message.Validate m) := by
  unfold decodeMsgAs
  cases unm data with
  | error e => exact Or.inl ⟨rfl, _, rfl, Or.inl rfl⟩
  | ok v => exact Or.inr ⟨inj v, rfl, (hinj v).symm⟩

set_option maxHeartbeats 2000000 in
theorem decodeEventFromProbe_cases (probe : EventProbe) :
    ((decodeEventFromProbe probe).val = none ∧
      ∃ e, (decodeEventFromProbe probe).err = some e ∧
        (e.wraps = some .unmarshalFailed ∨ e.wraps = some .invalidEventType)) ∨
    (∃ ev, (decodeEventFromProbe probe).val = some ev ∧
      (decodeEventFromProbe probe).err = Event.Validate ev) := by
  unfold decodeEventFromProbe
  by_cases h0 : probe.type = EventTypeRunStarted
  · rw [if_pos h0]
    exact decodeAs_cases_event _ _ _ _ _ (fun v => rfl)
  · rw [if_neg h0]
    by_cases h1 : probe.type = EventTypeRunFinished
    · rw [if_pos h1]
      exact decodeAs_cases_event _ _ _ _ _ (fun v => rfl)
    · rw [if_neg h1]
      by_cases h2 : probe.type = EventTypeRunError
      · rw [if_pos h2]
        exact decodeAs_cases_event _ _ _ _ _ (fun v => rfl)
      · rw [if_neg h2]
        by_cases h3 : probe.type = EventTypeStepStarted
        · rw [if_pos h3]
          exact decodeAs_cases_event _ _ _ _ _ (fun v => rfl)
        · rw [if_neg h3]
          by_cases h4 : probe.type = EventTypeStepFinished
          · rw [if_pos h4]
            exact decodeAs_cases_event _ _ _ _ _ (fun v => rfl)
          · rw [if_neg h4]
            by_cases h5 : probe.type = EventTypeTextMessageStart
            · rw [if_pos h5]
              exact decodeAs_cases_event _ _ _ _ _ (fun v => rfl)
            · rw [if_neg h5]
              by_cases h6 : probe.type = EventTypeTextMessageContent
              · rw [if_pos h6]
                exact decodeAs_cases_event _ _ _ _ _ (fun v => rfl)
              · rw [if_neg h6]
                by_cases h7 : probe.type = EventTypeTextMessageEnd
                · rw [if_pos h7]
                  exact decodeAs_cases_event _ _ _ _ _ (fun v => rfl)
                · rw [if_neg h7]
                  by_cases h8 : probe.type = EventTypeToolCallStart
                  · rw [if_pos h8]
                    exact decodeAs_cases_event _ _ _ _ _ (fun v => rfl)
                  · rw [if_neg h8]
                    by_cases h9 : probe.type = EventTypeToolCallArgs
                    · rw [if_pos h9]
                      exact decodeAs_cases_event _ _ _ _ _ (fun v => rfl)
                    · rw [if_neg h9]
                      by_cases h10 : probe.type = EventTypeToolCallEnd
                      · rw [if_pos h10]
                        exact decodeAs_cases_event _ _ _ _ _ (fun v => rfl)
                      · rw [if_neg h10]
                        by_cases h11 : probe.type = EventTypeToolCallResult
                        · rw [if_pos h11]
                          exact decodeAs_cases_event _ _ _ _ _ (fun v => rfl)
                        · rw [if_neg h11]
                          by_cases h12 : probe.type = EventTypeStateSnapshot
                          · rw [if_pos h12]
                            exact decodeAs_cases_event _ _ _ _ _ (fun v => rfl)
                          · rw [if_neg h12]
                            by_cases h13 : probe.type = EventTypeStateDelta
                            · rw [if_pos h13]
                              exact decodeAs_cases_event _ _ _ _ _ (fun v => rfl)
                            · rw [if_neg h13]
                              by_cases h14 : probe.type = EventTypeMessagesSnapshot
                              · rw [if_pos h14]
                                exact decodeAs_cases_event _ _ _ _ _ (fun v => rfl)
                              · rw [if_neg h14]
                                by_cases h15 : probe.type = EventTypeRaw
                                · rw [if_pos h15]
                                  exact decodeAs_cases_event _ _ _ _ _ (fun v => rfl)
                                · rw [if_neg h15]
                                  by_cases h16 : probe.type = EventTypeCustom
                                  · rw [if_pos h16]
                                    exact decodeAs_cases_event _ _ _ _ _ (fun v => rfl)
                                  · rw [if_neg h16]
                                    exact Or.inl ⟨rfl, _, rfl, Or.inr rfl⟩

set_option maxHeartbeats 1000000 in
theorem decodeMessageFromProbe_cases (probe : MessageProbe) :
    ((decodeMessageFromProbe probe).val = none ∧
      ∃ e, (decodeMessageFromProbe probe).err = some e ∧
        (e.wraps = some .unmarshalFailed ∨ e.wraps = some .invalidMessageType)) ∨
    (∃ m, (decodeMessageFromProbe probe).val = some m ∧
      (decodeMessageFromProbe probe).err = Message.Validate m) := by
  unfold decodeMessageFromProbe
  by_cases h0 : probe.role = RoleDeveloper
  · rw [if_pos h0]
    exact decodeMsgAs_cases _ _ _ _ _ (fun v => rfl)
  · rw [if_neg h0]
    by_cases h1 : probe.role = RoleSystem
    · rw [if_pos h1]
      exact decodeMsgAs_cases _ _ _ _ _ (fun v => rfl)
    · rw [if_neg h1]
      by_cases h2 : probe.role = RoleAssistant
      · rw [if_pos h2]
        exact decodeMsgAs_cases _ _ _ _ _ (fun v => rfl)
      · rw [if_neg h2]
        by_cases h3 : probe.role = RoleUser
        · rw [if_pos h3]
          exact decodeMsgAs_cases _ _ _ _ _ (fun v => rfl)
        · rw [if_neg h3]
          by_cases h4 : probe.role = RoleTool
          · rw [if_pos h4]
            exact decodeMsgAs_cases _ _ _ _ _ (fun v => rfl)
          · rw [if_neg h4]
            exact Or.inl ⟨rfl, _, rfl, Or.inr rfl⟩

theorem decodeEventFromJsonValue_cases (j : Json) :
    ((decodeEventFromJsonValue j).val = none ∧
      ∃ e, (decodeEventFromJsonValue j).err = some e ∧
        (e.wraps = some .unmarshalFailed ∨ e.wraps = some .invalidEventType)) ∨
    (∃ ev, (decodeEventFromJsonValue j).val = some ev ∧
      (decodeEventFromJsonValue j).err = Event.Validate ev) := by
  unfold decodeEventFromJsonValue
  cases unmarshalEventProbe j with
  | error e => exact Or.inl ⟨rfl, _, rfl, Or.inl rfl⟩
  | ok p => exact decodeEventFromProbe_cases _

theorem decodeMessageFromJsonValue_cases (j : Json) :
    ((decodeMessageFromJsonValue j).val = none ∧
      ∃ e, (decodeMessageFromJsonValue j).err = some e ∧
        (e.wraps = some .unmarshalFailed ∨ e.wraps = some .invalidMessageType)) ∨
    (∃ m, (decodeMessageFromJsonValue j).val = some m ∧
      (decodeMessageFromJsonValue j).err = Message.Validate m) := by
  unfold decodeMessageFromJsonValue
  cases unmarshalMessageProbe j with
  | error e => exact Or.inl ⟨rfl, _, rfl, Or.inl rfl⟩
  | ok p => exact decodeMessageFromProbe_cases _

theorem DecodeEventFromBytes_cases (data : List Char) :
    ((DecodeEventFromBytes data).val = none ∧
      ∃ e, (DecodeEventFromBytes data).err = some e ∧
        (e.wraps = some .unmarshalFailed ∨ e.wraps = some .invalidEventType)) ∨
    (∃ ev, (DecodeEventFromBytes data).val = some ev ∧
      (DecodeEventFromBytes data).err = Event.Validate ev) := by
  unfold DecodeEventFromBytes
  cases parseJsonChars data with
  | none => exact Or.inl ⟨rfl, _, rfl, Or.inl rfl⟩
  | some j => exact decodeEventFromJsonValue_cases j

theorem DecodeMessageFromBytes_cases (data : List Char) :
    ((DecodeMessageFromBytes data).val = none ∧
      ∃ e, (DecodeMessageFromBytes data).err = some e ∧
        (e.wraps = some .unmarshalFailed ∨ e.wraps = some .invalidMessageType)) ∨
    (∃ m, (DecodeMessageFromBytes data).val = some m ∧
      (DecodeMessageFromBytes data).err = Message.Validate m) := by
  unfold DecodeMessageFromBytes
  cases parseJsonChars data with
  | none => exact Or.inl ⟨rfl, _, rfl, Or.inl rfl⟩
  | some j => exact decodeMessageFromJsonValue_cases j

theorem decoderDecodeEvent_cases (cs : List Char) :
    (((Decoder.DecodeEvent cs).1.val = none ∧
      ∃ e, (Decoder.DecodeEvent cs).1.err = some e ∧
        (e.wraps = some .unmarshalFailed ∨ e.wraps = some .invalidEventType ∨
          e.wraps = some .ioEOF)) ∨
    (∃ ev, (Decoder.DecodeEvent cs).1.val = some ev ∧
      (Decoder.DecodeEvent cs).1.err = Event.Validate ev)) := by
  unfold Decoder.DecodeEvent
  cases parseOneJson cs with
  | eof => exact Or.inl ⟨rfl, _, rfl, Or.inr (Or.inr rfl)⟩
  | fail => exact Or.inl ⟨rfl, _, rfl, Or.inl rfl⟩
  | ok j rest =>
    rcases decodeEventFromJsonValue_cases j with ⟨h1, e, h2, h3⟩ | ⟨ev, h1, h2⟩
    · exact Or.inl ⟨h1, e, h2, Or.imp_right Or.inl h3⟩
    · exact Or.inr ⟨ev, h1, h2⟩

theorem decoderDecodeMessage_cases (cs : List Char) :
    (((Decoder.DecodeMessage cs).1.val = none ∧
      ∃ e, (Decoder.DecodeMessage cs).1.err = some e ∧
        (e.wraps = some .unmarshalFailed ∨ e.wraps = some .invalidMessageType ∨
          e.wraps = some .ioEOF)) ∨
    (∃ m, (Decoder.DecodeMessage cs).1.val = some m ∧
      (Decoder.DecodeMessage cs).1.err = Message.Validate m)) := by
  unfold Decoder.DecodeMessage
  cases parseOneJson cs with
  | eof => exact Or.inl ⟨rfl, _, rfl, Or.inr (Or.inr rfl)⟩
  | fail => exact Or.inl ⟨rfl, _, rfl, Or.inl rfl⟩
  | ok j rest =>
    rcases decodeMessageFromJsonValue_cases j with ⟨h1, e, h2, h3⟩ | ⟨m, h1, h2⟩
    · exact Or.inl ⟨h1, e, h2, Or.imp_right Or.inl h3⟩
    · exact Or.inr ⟨m, h1, h2⟩

/-! ## Stream loop lemmas -/

theorem parseJsonChars_render (j : Json) : parseJsonChars (renderJson j) = some j := by
  have h := parseOneJson_render j [] (by rfl)
  rw [parseJsonChars]
  rw [List.append_nil] at h
  rw [h]
  rfl

theorem EncodeEvent_of_valid (v : Event) (h : v.Validate = none) :
    EncodeEvent v = ⟨some (renderJson (eventToJson v)), none⟩ := by
  unfold EncodeEvent
  rw [h]

theorem EncodeMessage_of_valid (m : Message) (h : m.Validate = none) :
    EncodeMessage m = ⟨some (renderJson (messageToJson m)), none⟩ := by
  unfold EncodeMessage
  rw [h]

theorem eventToJson_isObj (v : Event) : ∃ fs, eventToJson v = .obj fs := by
  cases v <;> exact ⟨_, rfl⟩

theorem renderEventJson_head (v : Event) :
    ∃ t, renderJson (eventToJson v) = '\x7b' :: t := by
  obtain ⟨fs, hfs⟩ := eventToJson_isObj v
  rw [hfs]
  exact ⟨renderFields fs, rfl⟩

theorem encodeStream_boundary (vs : List Event) :
    digitBoundary ((vs.map (fun v => renderJson (eventToJson v))).flatten) = true := by
  cases vs with
  | nil => rfl
  | cons v vs =>
    obtain ⟨t, ht⟩ := renderEventJson_head v
    simp only [List.map_cons, List.flatten_cons, ht, List.cons_append]
    rfl

theorem decodeEventsLoop_step_ok (f : Nat) (cs : List Char) (j : Json) (rest : List Char)
    (hp : parseOneJson cs = .ok j rest) (ev : Event)
    (hdec : decodeEventFromJsonValue j = ⟨some ev, none⟩) :
    decodeEventsLoop (f + 1) cs =
      (ev :: (decodeEventsLoop f rest).1, (decodeEventsLoop f rest).2) := by
  simp only [decodeEventsLoop, hp, hdec]

theorem decodeEventsLoop_nil (f : Nat) : decodeEventsLoop f [] = ([], none) := by
  cases f with
  | zero => rfl
  | succ f => rfl

theorem decodeEventsLoop_err_stable (cs : List Char) (e : GoError)
    (h : decodeEventsLoop 1 cs = ([], some e)) :
    ∀ f, 1 ≤ f → decodeEventsLoop f cs = ([], some e) := by
  intro f hf
  cases f with
  | zero => omega
  | succ f =>
    rw [decodeEventsLoop] at h ⊢
    cases hp : parseOneJson cs with
    | eof =>
      rw [hp] at h
      exact absurd h (by simp)
    | fail =>
      rw [hp] at h
      exact h
    | ok j rest =>
      rw [hp] at h
      cases he : (decodeEventFromJsonValue j).err with
      | some e0 =>
        simp only [he] at h ⊢
        exact h
      | none =>
        simp only [he] at h ⊢
        cases hv : (decodeEventFromJsonValue j).val with
        | some ev =>
          simp only [hv, decodeEventsLoop] at h
          exact absurd h (by simp)
        | none =>
          simp only [hv] at h
          exact absurd h (by simp)

theorem StreamOk.length_le {cs : List Char} {evs : List Event} {tail : List Char}
    (h : StreamOk cs evs tail) : evs.length + tail.length ≤ cs.length := by
  induction h with
  | nil cs => simp
  | cons cs j rest ev evs tail hp hdec hrest ih =>
    have := parseOneJson_consume cs j rest hp
    simp only [List.length_cons]
    omega

theorem decodeEventsLoop_streamOk_err {cs : List Char} {evs : List Event} {tail : List Char}
    (h : StreamOk cs evs tail) :
    ∀ e, decodeEventsLoop 1 tail = ([], some e) →
      ∀ f, evs.length < f → decodeEventsLoop f cs = (evs, some e) := by
  induction h with
  | nil cs =>
    intro e htail f hf
    exact decodeEventsLoop_err_stable cs e htail f (by omega)
  | cons cs j rest ev evs tail hp hdec hrest ih =>
    intro e htail f hf
    cases f with
    | zero => omega
    | succ f =>
      rw [decodeEventsLoop_step_ok f cs j rest hp ev hdec,
        ih e htail f (by simp only [List.length_cons] at hf; omega)]

theorem decodeEventsLoop_streamOk_eof {cs : List Char} {evs : List Event} {tail : List Char}
    (h : StreamOk cs evs tail) :
    tail = [] → ∀ f, evs.length < f → decodeEventsLoop f cs = (evs, none) := by
  induction h with
  | nil cs =>
    intro ht f hf
    subst ht
    exact decodeEventsLoop_nil f
  | cons cs j rest ev evs tail hp hdec hrest ih =>
    intro ht f hf
    cases f with
    | zero => omega
    | succ f =>
      rw [decodeEventsLoop_step_ok f cs j rest hp ev hdec,
        ih ht f (by simp only [List.length_cons] at hf; omega)]

theorem streamOk_of_renders : ∀ vs : List Event,
    (∀ v ∈ vs, Event.Validate v = none) →
    (∀ v ∈ vs, (DecodeEventFromBytes (renderJson (eventToJson v))).err = none) →
    ∃ ws, StreamOk ((vs.map (fun v => renderJson (eventToJson v))).flatten) ws [] ∧
      ws.map some = vs.map (fun v => (DecodeEventFromBytes (renderJson (eventToJson v))).val) := by
  intro vs
  induction vs with
  | nil =>
    intro _ _
    exact ⟨[], StreamOk.nil [], rfl⟩
  | cons v vs ih =>
    intro hval hdec
    obtain ⟨ws, hok, hmap⟩ := ih (fun x hx => hval x (by simp [hx]))
      (fun x hx => hdec x (by simp [hx]))
    have hdv := hdec v (by simp)
    have hbytes : DecodeEventFromBytes (renderJson (eventToJson v)) =
        decodeEventFromJsonValue (eventToJson v) := by
      unfold DecodeEventFromBytes
      rw [parseJsonChars_render]
    rw [hbytes] at hdv
    rcases decodeEventFromJsonValue_cases (eventToJson v) with ⟨_, e, he, _⟩ | ⟨ev, hv, he⟩
    · rw [hdv] at he
      cases he
    · have hpair : decodeEventFromJsonValue (eventToJson v) = ⟨some ev, none⟩ := by
        cases hr : decodeEventFromJsonValue (eventToJson v)
        rw [hr] at hv he hdv
        simp_all
      refine ⟨ev :: ws, ?_, ?_⟩
      · simp only [List.map_cons, List.flatten_cons]
        exact StreamOk.cons _ (eventToJson v) _ ev ws []
          (parseOneJson_render (eventToJson v) _ (encodeStream_boundary vs)) hpair hok
      · simp only [List.map_cons, List.cons.injEq]
        refine ⟨?_, hmap⟩
        rw [hbytes, hpair]

theorem flatten_renders_length (vs : List Event) :
    vs.length ≤ ((vs.map (fun v => renderJson (eventToJson v))).flatten).length := by
  induction vs with
  | nil => simp
  | cons v vs ih =>
    obtain ⟨t, ht⟩ := renderEventJson_head v
    simp only [List.map_cons, List.flatten_cons, List.length_cons, List.length_append, ht]
    omega

/-! ## The claims -/

/-- C1: the round-trip property fails in the code. The
MessagesSnapshotEvent below is fully valid and EncodeEvent serializes it
without error, yet DecodeEventFromBytes on the very bytes EncodeEvent
produced returns a nil value and an error wrapping ErrUnmarshalFailed:
`Messages []Message` is a slice of a non-empty interface with no custom
unmarshaller, so `encoding/json` cannot fill any element. -/
theorem C1_messages_snapshot_roundtrip_fails :
    Event.Validate mseSnapshotExample = none ∧
    (EncodeEvent mseSnapshotExample).err = none ∧
    (DecodeEventFromBytes ((EncodeEvent mseSnapshotExample).val.getD [])).val = none ∧
    (DecodeEventFromBytes ((EncodeEvent mseSnapshotExample).val.getD [])).err.map
      GoError.wraps = some (some Sentinel.unmarshalFailed) := by
  decide

/-- C2 (amended): each decode operation returns either a nil value with a
non-nil error, or a decoded value together with exactly that value's
validation result - so a value CAN come back alongside a non-nil error,
namely when the payload unmarshals but fails validation
(`return &event, event.Validate()`). -/
theorem C2_decode_no_partial_amended (data cs : List Char) :
    (((DecodeEventFromBytes data).val = none ∧ (DecodeEventFromBytes data).err ≠ none) ∨
      ∃ ev, (DecodeEventFromBytes data).val = some ev ∧
        (DecodeEventFromBytes data).err = Event.Validate ev) ∧
    (((DecodeMessageFromBytes data).val = none ∧ (DecodeMessageFromBytes data).err ≠ none) ∨
      ∃ m, (DecodeMessageFromBytes data).val = some m ∧
        (DecodeMessageFromBytes data).err = Message.Validate m) ∧
    (((Decoder.DecodeEvent cs).1.val = none ∧ (Decoder.DecodeEvent cs).1.err ≠ none) ∨
      ∃ ev, (Decoder.DecodeEvent cs).1.val = some ev ∧
        (Decoder.DecodeEvent cs).1.err = Event.Validate ev) ∧
    (((Decoder.DecodeMessage cs).1.val = none ∧ (Decoder.DecodeMessage cs).1.err ≠ none) ∨
      ∃ m, (Decoder.DecodeMessage cs).1.val = some m ∧
        (Decoder.DecodeMessage cs).1.err = Message.Validate m) := by
  refine ⟨?_, ?_, ?_, ?_⟩
  · rcases DecodeEventFromBytes_cases data with ⟨h1, e, h2, _⟩ | h
    · exact Or.inl ⟨h1, by rw [h2]; exact Option.some_ne_none e⟩
    · exact Or.inr h
  · rcases DecodeMessageFromBytes_cases data with ⟨h1, e, h2, _⟩ | h
    · exact Or.inl ⟨h1, by rw [h2]; exact Option.some_ne_none e⟩
    · exact Or.inr h
  · rcases decoderDecodeEvent_cases cs with ⟨h1, e, h2, _⟩ | h
    · exact Or.inl ⟨h1, by rw [h2]; exact Option.some_ne_none e⟩
    · exact Or.inr h
  · rcases decoderDecodeMessage_cases cs with ⟨h1, e, h2, _⟩ | h
    · exact Or.inl ⟨h1, by rw [h2]; exact Option.some_ne_none e⟩
    · exact Or.inr h

/-- C2 counterexample: on a well-formed RunStarted object missing its
required fields, DecodeEventFromBytes returns BOTH a non-nil
(half-populated) value and a non-nil error. -/
theorem C2_both_value_and_error :
    (DecodeEventFromBytes runStartedNoThread).val =
      some (.runStarted ⟨⟨EventTypeRunStarted, none, none⟩, "", ""⟩) ∧
    (DecodeEventFromBytes runStartedNoThread).err =
      some (errPlain "thread ID is required") := by
  decide

/-- C3 (amended): the error sentinels distinguish only three classes, not
four: before dispatch the error wraps ErrUnmarshalFailed (malformed input
AND shape mismatch collapse into this one sentinel) or
ErrInvalidEventType / ErrInvalidMessageType (unknown type); after
dispatch the validation error is returned as built by Validate and wraps
no sentinel at all. -/
theorem C3_error_sentinels_amended (data : List Char) :
    (((DecodeEventFromBytes data).val = none ∧
       ((DecodeEventFromBytes data).err.map GoError.wraps =
          some (some Sentinel.unmarshalFailed) ∨
        (DecodeEventFromBytes data).err.map GoError.wraps =
          some (some Sentinel.invalidEventType))) ∨
     (∃ ev, (DecodeEventFromBytes data).val = some ev ∧
       ((DecodeEventFromBytes data).err = none ∨
        (DecodeEventFromBytes data).err.map GoError.wraps = some none))) ∧
    (((DecodeMessageFromBytes data).val = none ∧
       ((DecodeMessageFromBytes data).err.map GoError.wraps =
          some (some Sentinel.unmarshalFailed) ∨
        (DecodeMessageFromBytes data).err.map GoError.wraps =
          some (some Sentinel.invalidMessageType))) ∨
     (∃ m, (DecodeMessageFromBytes data).val = some m ∧
       ((DecodeMessageFromBytes data).err = none ∨
        (DecodeMessageFromBytes data).err.map GoError.wraps = some none))) := by
  constructor
  · rcases DecodeEventFromBytes_cases data with ⟨h1, e, h2, h3⟩ | ⟨ev, h1, h2⟩
    · refine Or.inl ⟨h1, ?_⟩
      rw [h2]
      rcases h3 with h | h
      · exact Or.inl (by simp [h])
      · exact Or.inr (by simp [h])
    · refine Or.inr ⟨ev, h1, ?_⟩
      cases hv : Event.Validate ev with
      | none => exact Or.inl (by rw [h2, hv])
      | some e =>
        refine Or.inr ?_
        rw [h2, hv]
        simp [Event_Validate_wraps ev e hv]
  · rcases DecodeMessageFromBytes_cases data with ⟨h1, e, h2, h3⟩ | ⟨m, h1, h2⟩
    · refine Or.inl ⟨h1, ?_⟩
      rw [h2]
      rcases h3 with h | h
      · exact Or.inl (by simp [h])
      · exact Or.inr (by simp [h])
    · refine Or.inr ⟨m, h1, ?_⟩
      cases hv : Message.Validate m with
      | none => exact Or.inl (by rw [h2, hv])
      | some e =>
        refine Or.inr ?_
        rw [h2, hv]
        simp [Message_Validate_wraps m e hv]

/-- C3 counterexample: a malformed input and a well-formed shape-mismatch
input fail with the SAME sentinel (ErrUnmarshalFailed), and a validation
failure wraps no sentinel, so the four claimed kinds cannot all be told
apart by inspecting the error. -/
theorem C3_sentinel_collision :
    parseJsonChars malformedInput = none ∧
    (DecodeEventFromBytes malformedInput).err.map GoError.wraps =
      some (some Sentinel.unmarshalFailed) ∧
    (parseJsonChars shapeMismatchInput).isSome = true ∧
    (DecodeEventFromBytes shapeMismatchInput).val = none ∧
    (DecodeEventFromBytes shapeMismatchInput).err.map GoError.wraps =
      some (some Sentinel.unmarshalFailed) ∧
    (DecodeEventFromBytes emptyIdTextEnd).val.isSome = true ∧
    (DecodeEventFromBytes emptyIdTextEnd).err.map GoError.wraps = some none := by
  decide

/-- C4: decoding the TEXT_MESSAGE_CONTENT object with delta "hi" yields
the TextMessageContentEvent with that delta and no error; with delta ""
the decode comes back with the validation error of the decoded event. -/
theorem C4_text_message_content_cases :
    DecodeEventFromBytes tmcGood =
      ⟨some (.textMessageContent ⟨⟨EventTypeTextMessageContent, none, none⟩, "m1", "hi"⟩),
        none⟩ ∧
    (DecodeEventFromBytes tmcEmptyDelta).val =
      some (.textMessageContent ⟨⟨EventTypeTextMessageContent, none, none⟩, "m1", ""⟩) ∧
    (DecodeEventFromBytes tmcEmptyDelta).err = some (errPlain "delta must not be empty") ∧
    Event.Validate
        (.textMessageContent ⟨⟨EventTypeTextMessageContent, none, none⟩, "m1", ""⟩) =
      some (errPlain "delta must not be empty") := by
  decide

/-- C5: EncodeEvent validates first; on any validation failure it returns
nil bytes and an error wrapping ErrValidationFailed, so no output is
produced. -/
theorem C5_encode_validation_failure (v : Event) (e : GoError)
    (h : Event.Validate v = some e) :
    EncodeEvent v = ⟨none, some (errWrap Sentinel.validationFailed e.msg)⟩ := by
  unfold EncodeEvent
  rw [h]

/-- C5 witness: a RunStarted-shaped payload whose header discriminator is
RUN_FINISHED fails encoding with the validation sentinel and nil bytes. -/
theorem C5_encode_validation_failure_witness :
    EncodeEvent (.runStarted ⟨⟨EventTypeRunFinished, none, none⟩, "thread_123", "run_456"⟩) =
      ⟨none, some (errWrap Sentinel.validationFailed
        "run started event must have RUN_STARTED type, got: RUN_FINISHED")⟩ :=
  C5_encode_validation_failure _
    (errPlain "run started event must have RUN_STARTED type, got: RUN_FINISHED")
    (by decide)

/-- C6 (amended): for every sequence of valid events whose encodings also
decode without error, the stream decoder delivers exactly the decoded
values in source order and terminates with no error. (The extra
decodability hypothesis is needed: C1 shows a valid event whose encoding
does not decode.) -/
theorem C6_stream_order_amended (vs : List Event)
    (hval : ∀ v ∈ vs, Event.Validate v = none)
    (hdec : ∀ v ∈ vs, (DecodeEventFromBytes ((EncodeEvent v).val.getD [])).err = none) :
    ∃ ws : List Event,
      DecodeEvents ((vs.map (fun v => (EncodeEvent v).val.getD [])).flatten) = (ws, none) ∧
      ws.map some =
        vs.map (fun v => (DecodeEventFromBytes ((EncodeEvent v).val.getD [])).val) := by
  have hmapeq : vs.map (fun v => (EncodeEvent v).val.getD []) =
      vs.map (fun v => renderJson (eventToJson v)) := by
    apply List.map_congr_left
    intro v hv
    rw [EncodeEvent_of_valid v (hval v hv)]
    rfl
  have hdec2 : ∀ v ∈ vs, (DecodeEventFromBytes (renderJson (eventToJson v))).err = none := by
    intro v hv
    have h := hdec v hv
    rw [EncodeEvent_of_valid v (hval v hv)] at h
    exact h
  obtain ⟨ws, hok, hmap⟩ := streamOk_of_renders vs hval hdec2
  have hlen : ws.length = vs.length := by
    have h := congrArg List.length hmap
    simpa using h
  refine ⟨ws, ?_, ?_⟩
  · rw [hmapeq]
    unfold DecodeEvents
    refine decodeEventsLoop_streamOk_eof hok rfl _ ?_
    have h2 := flatten_renders_length vs
    omega
  · have h3 : vs.map (fun v => (DecodeEventFromBytes ((EncodeEvent v).val.getD [])).val) =
        vs.map (fun v => (DecodeEventFromBytes (renderJson (eventToJson v))).val) := by
      apply List.map_congr_left
      intro v hv
      rw [EncodeEvent_of_valid v (hval v hv)]
      rfl
    rw [h3]
    exact hmap

/-- C6 witness: the two-event stream of streamPairExample is delivered in
order with no error. -/
theorem C6_stream_order_amended_witness :
    ∃ ws : List Event,
      DecodeEvents ((streamPairExample.map (fun v => (EncodeEvent v).val.getD [])).flatten) =
        (ws, none) ∧
      ws.map some =
        streamPairExample.map
          (fun v => (DecodeEventFromBytes ((EncodeEvent v).val.getD [])).val) :=
  C6_stream_order_amended streamPairExample (by decide) (by decide)

/-- C6 counterexample: one fully valid event (the C1 snapshot) encoded
into the source makes the stream deliver NO events and emit an error, so
the unconditional n-events claim fails. -/
theorem C6_stream_drops_valid_event :
    Event.Validate mseSnapshotExample = none ∧
    (DecodeEvents ((EncodeEvent mseSnapshotExample).val.getD [])).1 = [] ∧
    (DecodeEvents ((EncodeEvent mseSnapshotExample).val.getD [])).2.isSome = true := by
  decide

/-- C7: fail-fast. If the first values of the stream decode cleanly to
`evs` and the next value is erroneous (its one-step loop yields no event
and error e), the stream trace is exactly the clean prefix followed by
that single error: nothing after the failure is delivered. -/
theorem C7_stream_fail_fast (cs : List Char) (evs : List Event) (tail : List Char)
    (e : GoError) (hok : StreamOk cs evs tail)
    (herr : decodeEventsLoop 1 tail = ([], some e)) :
    DecodeEvents cs = (evs, some e) := by
  unfold DecodeEvents
  refine decodeEventsLoop_streamOk_err hok e herr _ ?_
  have h := hok.length_le
  omega

/-- C7 witness: a stream of one good encoded event followed by garbage
delivers that one event, then the malformed-input error, then stops. -/
theorem C7_stream_fail_fast_witness :
    DecodeEvents failFastStream =
      ([failFastHead],
        some (errWrap Sentinel.unmarshalFailed "invalid character in JSON input")) :=
  C7_stream_fail_fast failFastStream [failFastHead] ("]".data) _
    (StreamOk.cons _ (eventToJson failFastHead) _ failFastHead [] _
      (parseOneJson_render (eventToJson failFastHead) ("]".data) (by decide))
      (by decide) (StreamOk.nil _))
    (by decide)

/-- C8: FunctionCall.Validate accepts exactly a non-empty name together
with arguments whose string contents parse as JSON; the two concrete
instances of the claim behave as stated; and marshalling carries the
arguments as a JSON string node, never flattened into an object. -/
theorem C8_function_call_arguments :
    (∀ f : FunctionCall, FunctionCall.Validate f = none ↔
      (f.name ≠ "" ∧ (parseJsonStr f.arguments).isSome = true)) ∧
    FunctionCall.Validate ⟨"x", "\x7bbad json\x7d"⟩ =
      some (errPlain "function arguments must be valid JSON") ∧
    FunctionCall.Validate ⟨"x", "\x7b\"k\":1\x7d"⟩ = none ∧
    (∀ t : ToolCall, toolCallToJson t =
      .obj [("id", .str t.id), ("type", .str t.type),
        ("function", .obj [("name", .str t.function.name),
          ("arguments", .str t.function.arguments)])]) := by
  refine ⟨?_, by decide, by decide, fun t => rfl⟩
  intro f
  unfold FunctionCall.Validate
  by_cases hn : f.name = ""
  · rw [if_pos hn]
    simp [hn]
  · rw [if_neg hn]
    by_cases ha : f.arguments = ""
    · rw [if_pos ha]
      constructor
      · intro h
        exact absurd h (by simp)
      · rintro ⟨-, hs⟩
        rw [ha] at hs
        exact absurd hs (by decide)
    · rw [if_neg ha]
      cases hp : parseJsonStr f.arguments with
      | none => simp [hn, hp]
      | some j => simp [hn, hp]

/-- C9: the bytes "null" are well-formed JSON, the probe succeeds leaving
the discriminator empty, and both decoders fail with the unknown-type
sentinel, not the malformed-input one. -/
theorem C9_null_is_unknown_type :
    parseJsonChars "null".data = some Json.null ∧
    DecodeEventFromBytes "null".data =
      ⟨none, some (errWrap Sentinel.invalidEventType "unknown event type: ")⟩ ∧
    DecodeMessageFromBytes "null".data =
      ⟨none, some (errWrap Sentinel.invalidMessageType "unknown message role: ")⟩ := by
  decide

/-- C10: with the other constraints satisfied, ToolCallResultEvent's
validation accepts exactly an empty role or any of the five recognized
roles, and rejects only a non-empty unrecognized role. -/
theorem C10_tool_call_result_role (t : ToolCallResultEvent)
    (htype : t.base.type = EventTypeToolCallResult)
    (hmid : t.messageId ≠ "") (htid : t.toolCallId ≠ "") (hcon : t.content ≠ "") :
    ToolCallResultEvent.Validate t = none ↔ (t.role = "" ∨ t.role.IsValid = true) := by
  unfold ToolCallResultEvent.Validate
  have hb : t.base.Validate = none := by
    unfold BaseEvent.Validate
    have hv : t.base.type.IsValid = true := by rw [htype]; decide
    simp [hv]
  rw [hb]
  simp only [htype, hmid, htid, hcon, ne_eq, not_true_eq_false, if_false, if_neg,
    not_false_eq_true]
  by_cases hr : t.role = ""
  · simp [hr]
  · by_cases hv : t.role.IsValid = true
    · simp [hr, hv]
    · simp [hr, hv]

/-- C10 witness: a ToolCallResultEvent with role "user" validates, and
the same event with an unrecognized role is rejected. -/
theorem C10_tool_call_result_role_witness :
    ToolCallResultEvent.Validate
      ⟨⟨EventTypeToolCallResult, none, none⟩, "m1", "tc1", "ok", RoleUser⟩ = none ∧
    ¬ ToolCallResultEvent.Validate
      ⟨⟨EventTypeToolCallResult, none, none⟩, "m1", "tc1", "ok", "bogus"⟩ = none :=
  ⟨(C10_tool_call_result_role _ rfl (by decide) (by decide) (by decide)).mpr
      (Or.inr (by decide)),
   fun h => absurd
     ((C10_tool_call_result_role _ rfl (by decide) (by decide) (by decide)).mp h)
     (by decide)⟩

end AgUi
